import Mathlib

/-!
# Verification of the AIQuery query-orchestration pipeline

Shallow embedding of the core of the AIQuery repository: the SQL safety
validator (`agents/validation_agent.py`), the result cache
(`services/cache.py`), the rate limiter and AI gateway
(`services/ai_gateway.py`), the conversation memory (`services/memory.py`)
and the supervisor workflow (`agents/supervisor.py`).

Text is represented as `List Char`.  Python regular-expression searches are
embedded as explicit scanners over character lists, faithful to the exact
patterns in the source (word boundaries, `\s` classes, lookbehind).
-/

namespace AIQuery

/-- Character list of a string literal. -/
def chars (s : String) : List Char := s.data

/-- ASCII whitespace: the class matched by Python `\s` and `str.split()`. -/
def isSpaceChar (c : Char) : Bool :=
  c = ' ' || c = '\t' || c = '\n' || c = '\r' || c = '\x0b' || c = '\x0c'

/-- Python `\w` word-character class (ASCII scope). -/
def isWordChar (c : Char) : Bool := c.isAlphanum || c = '_'

/-- Lower-case a character (ASCII scope, as used by the source's
`re.IGNORECASE` and `.lower()` on ASCII inputs). -/
def lc (c : Char) : Char := c.toLower

/-- `re.sub(r'--.*$', '', sql, flags=re.MULTILINE)`: on each line, delete
from the first `--` to the end of the line.  The flag is comment mode. -/
def stripLineCommentsAux : Bool → List Char → List Char
  | _, [] => []
  | true, c :: rest =>
      if c = '\n' then '\n' :: stripLineCommentsAux false rest
      else stripLineCommentsAux true rest
  | false, '-' :: '-' :: rest => stripLineCommentsAux true rest
  | false, c :: rest => c :: stripLineCommentsAux false rest

def stripLineComments (s : List Char) : List Char := stripLineCommentsAux false s

/-- Suffix after the first `*/`, if any. -/
def findClose : List Char → Option (List Char)
  | [] => none
  | '*' :: '/' :: rest => some rest
  | _ :: rest => findClose rest

/-- Fueled scanner for `re.sub(r'/\*.*?\*/', '', sql, flags=re.DOTALL)`:
delete each `/*`‥first subsequent `*/` span; a `/*` with no closing `*/`
is kept verbatim (the pattern cannot match it).  The fuel strictly
dominates the number of steps (each step consumes at least one input
character), so `stripBlockComments` never runs out. -/
def stripBlockAux : Nat → List Char → List Char
  | 0, s => s
  | _ + 1, [] => []
  | fuel + 1, '/' :: '*' :: rest =>
      (match findClose rest with
       | some rest2 => stripBlockAux fuel rest2
       | none => '/' :: '*' :: rest)
  | fuel + 1, c :: rest => c :: stripBlockAux fuel rest

def stripBlockComments (s : List Char) : List Char := stripBlockAux s.length s

/-- Python `str.split()`: split on whitespace runs, dropping empty fields.
The accumulator holds the current field reversed. -/
def splitWsAux : List Char → List Char → List (List Char)
  | acc, [] => if acc.isEmpty then [] else [acc.reverse]
  | acc, c :: rest =>
      if isSpaceChar c then
        if acc.isEmpty then splitWsAux [] rest
        else acc.reverse :: splitWsAux [] rest
      else splitWsAux (c :: acc) rest

/-- `' '.join(sql.split())`. -/
def normalizeWs (s : List Char) : List Char :=
  List.intercalate [' '] (splitWsAux [] s)

/-- Python `str.rstrip(';')`. -/
def rstripSemis (s : List Char) : List Char :=
  (s.reverse.dropWhile (fun c => c = ';')).reverse

/-- Python `str.strip()` (ASCII whitespace). -/
def stripWs (s : List Char) : List Char :=
  ((s.dropWhile isSpaceChar).reverse.dropWhile isSpaceChar).reverse

/-- `ValidationAgent._clean_sql`: strip comments, collapse whitespace,
strip trailing semicolons, strip outer whitespace. -/
def cleanSql (s : List Char) : List Char :=
  stripWs (rstripSemis (normalizeWs (stripBlockComments (stripLineComments s))))

/-- Case-insensitive literal prefix match (`kw` given in lower case);
returns the remainder on success. -/
def matchKw : List Char → List Char → Option (List Char)
  | [], s => some s
  | _ :: _, [] => none
  | k :: ks, c :: cs => if lc c = k then matchKw ks cs else none

/-- Left word boundary: previous character (if any) is not a word character. -/
def prevOk : Option Char → Bool
  | none => true
  | some p => !isWordChar p

/-- Right word boundary: next character (if any) is not a word character. -/
def nextOk : List Char → Bool
  | [] => true
  | r :: _ => !isWordChar r

/-- Is there a case-insensitive `\bkw\b` match at some position?  `prev` is
the character just before the current position. -/
def wbHitAux (kw : List Char) : Option Char → List Char → Bool
  | _, [] => false
  | prev, c :: cs =>
      (prevOk prev &&
        (match matchKw kw (c :: cs) with
         | some rest => nextOk rest
         | none => false)) ||
      wbHitAux kw (some c) cs

def wbHit (kw : List Char) (s : List Char) : Bool := wbHitAux kw none s

/-- Number of positions with a case-insensitive `\bkw\b` match. -/
def wbCountAux (kw : List Char) : Option Char → List Char → Nat
  | _, [] => 0
  | prev, c :: cs =>
      (if prevOk prev &&
          (match matchKw kw (c :: cs) with
           | some rest => nextOk rest
           | none => false) then 1 else 0) +
      wbCountAux kw (some c) cs

def wbCount (kw : List Char) (s : List Char) : Nat := wbCountAux kw none s

/-- Does predicate `p` hold on some suffix of `s` (a `re.search` over all
start positions, end position included)? -/
def anyPos (p : List Char → Bool) : List Char → Bool
  | [] => p []
  | c :: cs => p (c :: cs) || anyPos p cs

/-- `;\s*--` at the current position. -/
def injectionAt (s : List Char) : Bool :=
  match s with
  | ';' :: rest =>
      (match rest.dropWhile isSpaceChar with
       | '-' :: '-' :: _ => true
       | _ => false)
  | _ => false

/-- The SQL-injection pattern `;\s*--` from `BLOCKED_PATTERNS`. -/
def injectionHit (s : List Char) : Bool := anyPos injectionAt s

def aggKws : List (List Char) :=
  [chars "count", chars "sum", chars "avg", chars "max", chars "min"]

/-- After an aggregate keyword: `\s*\(`. -/
def aggParen (rest : List Char) : Bool :=
  match rest.dropWhile isSpaceChar with
  | '(' :: _ => true
  | _ => false

/-- `\b(COUNT|SUM|AVG|MAX|MIN)\s*\(` at some position. -/
def aggHitAux : Option Char → List Char → Bool
  | _, [] => false
  | prev, c :: cs =>
      (prevOk prev &&
        aggKws.any (fun kw =>
          match matchKw kw (c :: cs) with
          | some rest => aggParen rest
          | none => false)) ||
      aggHitAux (some c) cs

def aggHit (s : List Char) : Bool := aggHitAux none s

/-- `\bGROUP\s+BY\b` at the current position. -/
def groupByAt (prev : Option Char) (s : List Char) : Bool :=
  prevOk prev &&
  (match matchKw (chars "group") s with
   | some rest =>
       (match rest with
        | w :: _ =>
            isSpaceChar w &&
            (match matchKw (chars "by") (rest.dropWhile isSpaceChar) with
             | some rest2 => nextOk rest2
             | none => false)
        | [] => false)
   | none => false)

def groupByHitAux : Option Char → List Char → Bool
  | _, [] => false
  | prev, c :: cs => groupByAt prev (c :: cs) || groupByHitAux (some c) cs

def groupByHit (s : List Char) : Bool := groupByHitAux none s

/-- `\bLIMIT\b` (case-insensitive). -/
def hasLimitWord (s : List Char) : Bool := wbHit (chars "limit") s

/-- `SELECT\s+\*` at the current position (no word boundary in the source
pattern). -/
def selectStarAt (s : List Char) : Bool :=
  match matchKw (chars "select") s with
  | some rest =>
      (match rest with
       | w :: _ =>
           isSpaceChar w &&
           (match rest.dropWhile isSpaceChar with
            | '*' :: _ => true
            | _ => false)
       | [] => false)
  | none => false

def selectStarHit (s : List Char) : Bool := anyPos selectStarAt s

/-- Length of the leading digit run. -/
def digitRunLen : List Char → Nat
  | [] => 0
  | c :: cs => if c.isDigit then 1 + digitRunLen cs else 0

/-- Would the lookbehind `(?<=LIMIT\s)` hold here?  `rev` is the reversed
list of characters before the current position. -/
def limitBefore (rev : List Char) : Bool :=
  match rev with
  | w :: t :: i2 :: m :: i1 :: l :: _ =>
      isSpaceChar w && lc t = 't' && lc i2 = 'i' && lc m = 'm' &&
        lc i1 = 'i' && lc l = 'l'
  | _ => false

/-- `(?<!LIMIT\s)\d{4,}`: a run of at least four digits starting at a
position not preceded by `LIMIT` and one whitespace character. -/
def bigNumAux : List Char → List Char → Bool
  | _, [] => false
  | rev, c :: cs =>
      (decide (4 ≤ digitRunLen (c :: cs)) && !limitBefore rev) ||
      bigNumAux (c :: rev) cs

def bigNumHit (s : List Char) : Bool := bigNumAux [] s

/-- `\bJOIN\b.*\bJOIN\b.*\bJOIN\b`: three word-boundary occurrences of
`JOIN` (occurrences are necessarily at least four characters apart). -/
def tripleJoinHit (s : List Char) : Bool := decide (3 ≤ wbCount (chars "join") s)

/-- `cleaned_sql.strip().upper().startswith('SELECT')`. -/
def startsWithSelect (s : List Char) : Bool :=
  (matchKw (chars "select") (stripWs s)).isSome

/-- Remainder after the first case-insensitive occurrence of `pat` (the
`_estimate_cost` patterns match on the upper-cased text, hence
case-insensitively on the original). -/
def substrFindCI (pat : List Char) : List Char → Option (List Char)
  | [] => matchKw pat []
  | c :: cs =>
      match matchKw pat (c :: cs) with
      | some rest => some rest
      | none => substrFindCI pat cs

def infixCI (pat s : List Char) : Bool := (substrFindCI pat s).isSome

/-- `SELECT\s+\*.*JOIN.*JOIN.*JOIN` at the current position (`JOIN` here is
a plain substring, no word boundary). -/
def selectStarJoin3At (s : List Char) : Bool :=
  match matchKw (chars "select") s with
  | some rest =>
      (match rest with
       | w :: _ =>
           isSpaceChar w &&
           (match rest.dropWhile isSpaceChar with
            | '*' :: after =>
                (match substrFindCI (chars "join") after with
                 | some a1 =>
                     (match substrFindCI (chars "join") a1 with
                      | some a2 => (substrFindCI (chars "join") a2).isSome
                      | none => false)
                 | none => false)
            | _ => false)
       | [] => false)
  | none => false

def selectStarJoin3Hit (s : List Char) : Bool := anyPos selectStarJoin3At s

/-- `NOT\s+IN\s*\(` at the current position (no word boundaries). -/
def notInAt (s : List Char) : Bool :=
  match matchKw (chars "not") s with
  | some rest =>
      (match rest with
       | w :: _ =>
           isSpaceChar w &&
           (match matchKw (chars "in") (rest.dropWhile isSpaceChar) with
            | some rest2 =>
                (match rest2.dropWhile isSpaceChar with
                 | '(' :: _ => true
                 | _ => false)
            | none => false)
       | [] => false)
  | none => false

def notInHit (s : List Char) : Bool := anyPos notInAt s

/-- `LIKE\s+['"]%` at the current position. -/
def likeWildcardAt (s : List Char) : Bool :=
  match matchKw (chars "like") s with
  | some rest =>
      (match rest with
       | w :: _ =>
           isSpaceChar w &&
           (match rest.dropWhile isSpaceChar with
            | q :: '%' :: _ => q = Char.ofNat 39 || q = '"'
            | _ => false)
       | [] => false)
  | none => false

def likeWildcardHit (s : List Char) : Bool := anyPos likeWildcardAt s

/-- `GROUP\s+BY` / `ORDER\s+BY` style medium-cost patterns: first word, one
or more whitespace characters, second word, no boundaries. -/
def wordGapAt (w1 w2 : List Char) (s : List Char) : Bool :=
  match matchKw w1 s with
  | some rest =>
      (match rest with
       | w :: _ => isSpaceChar w && (matchKw w2 (rest.dropWhile isSpaceChar)).isSome
       | [] => false)
  | none => false

/-- `ValidationAgent._estimate_cost`. -/
def estimateCost (s : List Char) : List Char :=
  if selectStarJoin3Hit s || notInHit s || likeWildcardHit s then chars "high"
  else if infixCI (chars "join") s || anyPos (wordGapAt (chars "group") (chars "by")) s ||
          anyPos (wordGapAt (chars "order") (chars "by")) s || infixCI (chars "distinct") s then
    chars "medium"
  else chars "low"

/-- `ValidationAgent.BLOCKED_PATTERNS`, in source order, as (matcher,
pattern text) pairs. -/
def blockedTests : List ((List Char → Bool) × List Char) :=
  [ (wbHit (chars "drop"),     chars "\\bDROP\\b"),
    (wbHit (chars "delete"),   chars "\\bDELETE\\b"),
    (wbHit (chars "truncate"), chars "\\bTRUNCATE\\b"),
    (wbHit (chars "alter"),    chars "\\bALTER\\b"),
    (wbHit (chars "create"),   chars "\\bCREATE\\b"),
    (wbHit (chars "insert"),   chars "\\bINSERT\\b"),
    (wbHit (chars "update"),   chars "\\bUPDATE\\b"),
    (wbHit (chars "grant"),    chars "\\bGRANT\\b"),
    (wbHit (chars "revoke"),   chars "\\bREVOKE\\b"),
    (injectionHit,             chars ";\\s*--"),
    (wbHit (chars "exec"),     chars "\\bEXEC\\b"),
    (wbHit (chars "execute"),  chars "\\bEXECUTE\\b") ]

/-- Does any blocked pattern match? -/
def blockedHit (s : List Char) : Bool := blockedTests.any (fun pt => pt.1 s)

/-- `ValidationAgent.WARNING_PATTERNS`, in source order. -/
def warningTests : List ((List Char → Bool) × List Char) :=
  [ (selectStarHit, chars "Using SELECT * - consider specifying columns"),
    (bigNumHit,     chars "Large number detected - verify if intentional"),
    (tripleJoinHit, chars "Multiple JOINs detected - may be slow") ]

/-- `ValidationResult` (pydantic model in the source). -/
structure ValidationResult where
  is_valid : Bool
  sql : List Char
  errors : List (List Char)
  warnings : List (List Char)
  estimated_cost : List Char
deriving DecidableEq

/-- The error list accumulated by `validate` over the cleaned text: one
message per matching blocked pattern, then the read-only check. -/
def validateErrors (cleaned : List Char) : List (List Char) :=
  (blockedTests.filterMap (fun pt =>
    if pt.1 cleaned then some (chars "Blocked operation detected: " ++ pt.2) else none)) ++
  (if startsWithSelect cleaned then [] else [chars "Only SELECT queries are allowed"])

/-- The warning list accumulated by `validate` over the cleaned text
(before the possible injected-cap warning). -/
def validateWarnings (cleaned : List Char) : List (List Char) :=
  warningTests.filterMap (fun pt => if pt.1 cleaned then some pt.2 else none)

/-- The auto-cap condition: no `LIMIT` word, no aggregate call, no
`GROUP BY` clause in the cleaned text. -/
def capNeeded (cleaned : List Char) : Bool :=
  !hasLimitWord cleaned && !aggHit cleaned && !groupByHit cleaned

/-- `ValidationAgent.validate`. -/
def validate (sql : List Char) : ValidationResult :=
  if sql.isEmpty || (stripWs sql).isEmpty then
    { is_valid := false, sql := [], errors := [chars "Empty SQL query"],
      warnings := [], estimated_cost := chars "low" }
  else
    let cleaned := cleanSql sql
    { is_valid := (validateErrors cleaned).isEmpty,
      sql := if capNeeded cleaned then rstripSemis cleaned ++ chars " LIMIT 1000" else cleaned,
      errors := validateErrors cleaned,
      warnings := if capNeeded cleaned then
          validateWarnings cleaned ++ [chars "Added LIMIT 1000 to prevent large result sets"]
        else validateWarnings cleaned,
      estimated_cost := estimateCost cleaned }

/-! ## Helper lemmas for the validator -/

theorem stripWs_eq_rdrop (s : List Char) :
    stripWs s = List.rdropWhile isSpaceChar (s.dropWhile isSpaceChar) := rfl

theorem head_dropWhile_false {α : Type} (p : α → Bool) (l : List α) (a : α)
    (h : (l.dropWhile p).head? = some a) : p a = false := by
  induction l with
  | nil => simp [List.dropWhile] at h
  | cons x xs ih =>
      by_cases hx : p x = true
      · rw [List.dropWhile_cons, if_pos hx] at h
        exact ih h
      · rw [List.dropWhile_cons, if_neg hx] at h
        simp only [List.head?_cons, Option.some.injEq] at h
        rw [← h]
        exact Bool.eq_false_iff.mpr hx

theorem stripWs_idem (s : List Char) : stripWs (stripWs s) = stripWs s := by
  rw [stripWs_eq_rdrop, stripWs_eq_rdrop]
  have h1 : List.dropWhile isSpaceChar
      (List.rdropWhile isSpaceChar (List.dropWhile isSpaceChar s)) =
      List.rdropWhile isSpaceChar (List.dropWhile isSpaceChar s) := by
    rcases hpre : List.rdropWhile isSpaceChar (List.dropWhile isSpaceChar s) with _ | ⟨a, m⟩
    · rfl
    · have hpref := List.rdropWhile_prefix (p := isSpaceChar)
        (l := List.dropWhile isSpaceChar s)
      rw [hpre] at hpref
      rcases hpref with ⟨tl, htl⟩
      have hha : (List.dropWhile isSpaceChar s).head? = some a := by
        rw [← htl]; rfl
      have hna := head_dropWhile_false isSpaceChar s a hha
      rw [List.dropWhile_cons, if_neg (by simp [hna])]
  rw [h1, List.rdropWhile_idempotent]

theorem notEmptyCond {s : List Char} (h : stripWs s ≠ []) :
    (s.isEmpty || (stripWs s).isEmpty) = false := by
  have hs : s ≠ [] := by
    intro e; rw [e] at h; exact h rfl
  cases s with
  | nil => exact absurd rfl hs
  | cons a l =>
      cases hst : stripWs (a :: l) with
      | nil => exact absurd hst h
      | cons b m => simp [hst]

theorem filterMap_guard_eq_nil {α β : Type} (l : List α) (p : α → Bool) (g : α → β) :
    (l.filterMap (fun a => if p a then some (g a) else none) = []) ↔ l.any p = false := by
  induction l with
  | nil => simp
  | cons x xs ih =>
      by_cases hx : p x = true
      · simp [List.filterMap_cons, hx]
      · simp [List.filterMap_cons, hx, ih]

theorem capNeeded_iff (c : List Char) :
    capNeeded c = true ↔
      (hasLimitWord c = false ∧ aggHit c = false ∧ groupByHit c = false) := by
  simp [capNeeded, Bool.and_eq_true, Bool.not_eq_true', and_assoc]

/-- If a word-boundary match exists in the tail with the given previous
character, it exists in any extension to the left. -/
theorem wbHitAux_append_of_tail (kw : List Char) (y : Char) (ys : List Char)
    (h : wbHitAux kw (some y) ys = true) :
    ∀ (p : Option Char) (xs : List Char), wbHitAux kw p (xs ++ y :: ys) = true := by
  intro p xs
  induction xs generalizing p with
  | nil =>
      rw [List.nil_append, wbHitAux]
      exact Bool.or_eq_true_iff.mpr (Or.inr h)
  | cons x xs ih =>
      rw [List.cons_append, wbHitAux]
      exact Bool.or_eq_true_iff.mpr (Or.inr (ih (some x)))

/-! ## Claims C1, C4, C5, C9: the safety validator -/

/-- The ten keywords named by claim C1 (lower-cased). -/
def claimKeywords : List (List Char) :=
  [chars "drop", chars "delete", chars "update", chars "insert", chars "truncate",
   chars "alter", chars "grant", chars "revoke", chars "exec", chars "execute"]

/-- C1 counterexample: the input `SELECT 1 -- DROP` contains `DROP` as a
case-insensitive word-boundary match, yet `validate` accepts it, because
the blocked-pattern scan runs on the cleaned text and cleaning strips the
line comment holding the keyword.  The claim, which quantifies over the
raw candidate string, is therefore false. -/
theorem validate_accepts_keyword_in_comment :
    wbHit (chars "drop") (chars "SELECT 1 -- DROP") = true ∧
    (validate (chars "SELECT 1 -- DROP")).is_valid = true := by
  constructor
  · decide
  · decide

/-- C1 (amended): for every candidate query string whose CLEANED text
(comments stripped, whitespace collapsed, trailing semicolons removed)
contains any of the keywords DROP, DELETE, UPDATE, INSERT, TRUNCATE,
ALTER, GRANT, REVOKE, EXEC or EXECUTE as a case-insensitive word-boundary
match, `validate` returns `is_valid = false`. -/
theorem validate_blocks_cleaned_keywords (s kw : List Char)
    (hkw : kw ∈ claimKeywords) (hhit : wbHit kw (cleanSql s) = true) :
    (validate s).is_valid = false := by
  by_cases hcond : (s.isEmpty || (stripWs s).isEmpty) = true
  · simp [validate, hcond]
  · have hcond' : (s.isEmpty || (stripWs s).isEmpty) = false :=
      Bool.eq_false_iff.mpr hcond
    have hb : blockedTests.any (fun pt => pt.1 (cleanSql s)) = true := by
      apply List.any_eq_true.mpr
      fin_cases hkw
      · exact ⟨(wbHit (chars "drop"), chars "\\bDROP\\b"), by simp [blockedTests], hhit⟩
      · exact ⟨(wbHit (chars "delete"), chars "\\bDELETE\\b"), by simp [blockedTests], hhit⟩
      · exact ⟨(wbHit (chars "update"), chars "\\bUPDATE\\b"), by simp [blockedTests], hhit⟩
      · exact ⟨(wbHit (chars "insert"), chars "\\bINSERT\\b"), by simp [blockedTests], hhit⟩
      · exact ⟨(wbHit (chars "truncate"), chars "\\bTRUNCATE\\b"), by simp [blockedTests], hhit⟩
      · exact ⟨(wbHit (chars "alter"), chars "\\bALTER\\b"), by simp [blockedTests], hhit⟩
      · exact ⟨(wbHit (chars "grant"), chars "\\bGRANT\\b"), by simp [blockedTests], hhit⟩
      · exact ⟨(wbHit (chars "revoke"), chars "\\bREVOKE\\b"), by simp [blockedTests], hhit⟩
      · exact ⟨(wbHit (chars "exec"), chars "\\bEXEC\\b"), by simp [blockedTests], hhit⟩
      · exact ⟨(wbHit (chars "execute"), chars "\\bEXECUTE\\b"), by simp [blockedTests], hhit⟩
    have hne : validateErrors (cleanSql s) ≠ [] := by
      intro he
      rw [validateErrors] at he
      rcases List.append_eq_nil.mp he with ⟨hA, _⟩
      rw [filterMap_guard_eq_nil] at hA
      rw [hb] at hA
      exact Bool.true_eq_false.mp hA
    cases hE : validateErrors (cleanSql s) with
    | nil => exact absurd hE hne
    | cons a l => simp [validate, hcond', hE]

/-- C1 witness: a destructive keyword surviving into the cleaned text is
rejected. -/
theorem validate_blocks_cleaned_keywords_witness :
    (validate (chars "DROP TABLE customers")).is_valid = false :=
  validate_blocks_cleaned_keywords (chars "DROP TABLE customers") (chars "drop")
    (by decide) (by decide)

/-- C4: for every non-empty, non-whitespace-only input string, `validate`
returns `is_valid = true` iff no blocked pattern matches the cleaned text
and the cleaned text starts with the read-only keyword `SELECT`.  The
validity is fully characterised without reference to the warning list, so
warnings never affect validity. -/
theorem validate_valid_iff (s : List Char) (h : stripWs s ≠ []) :
    (validate s).is_valid = true ↔
      (blockedHit (cleanSql s) = false ∧ startsWithSelect (cleanSql s) = true) := by
  have hcond := notEmptyCond h
  simp only [validate, hcond, Bool.false_eq_true, if_false, validateErrors, blockedHit,
    List.isEmpty_eq_true, List.append_eq_nil, filterMap_guard_eq_nil]
  by_cases hsel : startsWithSelect (cleanSql s) = true <;> simp [hsel]

/-- C4 witness: evaluated on `SELECT * FROM customers`. -/
theorem validate_valid_iff_witness :
    stripWs (chars "SELECT * FROM customers") ≠ [] ∧
    ((validate (chars "SELECT * FROM customers")).is_valid = true ↔
      (blockedHit (cleanSql (chars "SELECT * FROM customers")) = false ∧
       startsWithSelect (cleanSql (chars "SELECT * FROM customers")) = true)) :=
  ⟨by decide, validate_valid_iff _ (by decide)⟩

/-- C5 counterexample: a query with an aggregate function AND a GROUP BY
clause does NOT receive the row cap (the aggregate check alone exempts
it), contradicting the claim's assertion that aggregate-with-group-by
queries are not exempted. -/
theorem validate_cap_aggregate_groupby_exempt :
    aggHit (cleanSql (chars "SELECT c, COUNT(id) FROM orders GROUP BY c")) = true ∧
    groupByHit (cleanSql (chars "SELECT c, COUNT(id) FROM orders GROUP BY c")) = true ∧
    hasLimitWord (cleanSql (chars "SELECT c, COUNT(id) FROM orders GROUP BY c")) = false ∧
    (validate (chars "SELECT c, COUNT(id) FROM orders GROUP BY c")).sql =
      cleanSql (chars "SELECT c, COUNT(id) FROM orders GROUP BY c") ∧
    hasLimitWord ((validate (chars "SELECT c, COUNT(id) FROM orders GROUP BY c")).sql) = false := by
  refine ⟨by decide, by decide, by decide, by decide, by decide⟩

/-- C5 (amended): `validate` appends `LIMIT 1000` to the cleaned text
exactly when the cleaned text has no `LIMIT` word, no aggregate function
call and no `GROUP BY` clause; any aggregate function exempts the query
from the cap whether or not a `GROUP BY` clause is present, and the cap
warning is emitted exactly when the cap is appended. -/
theorem validate_cap_characterisation (s : List Char) (h : stripWs s ≠ []) :
    ((validate s).sql =
      if hasLimitWord (cleanSql s) = false ∧ aggHit (cleanSql s) = false ∧
          groupByHit (cleanSql s) = false
      then rstripSemis (cleanSql s) ++ chars " LIMIT 1000" else cleanSql s) ∧
    ((chars "Added LIMIT 1000 to prevent large result sets") ∈ (validate s).warnings ↔
      (hasLimitWord (cleanSql s) = false ∧ aggHit (cleanSql s) = false ∧
        groupByHit (cleanSql s) = false)) := by
  have hcond := notEmptyCond h
  have hcapMsg : ∀ m ∈ validateWarnings (cleanSql s),
      m ≠ chars "Added LIMIT 1000 to prevent large result sets" := by
    intro m hm
    rw [validateWarnings] at hm
    rcases List.mem_filterMap.mp hm with ⟨pt, hpt, hpm⟩
    have hm2 : pt.2 = m := by
      rcases ite_eq_iff.mp hpm with ⟨_, he⟩ | ⟨_, he⟩
      · exact Option.some.inj he
      · exact Option.noConfusion he
    fin_cases hpt <;> (rw [← hm2]; decide)
  by_cases hcap : capNeeded (cleanSql s) = true
  · have hiff := (capNeeded_iff (cleanSql s)).mp hcap
    constructor
    · simp [validate, hcond, hcap, hiff]
    · simp [validate, hcond, hcap, hiff]
  · have hiff : ¬(hasLimitWord (cleanSql s) = false ∧ aggHit (cleanSql s) = false ∧
        groupByHit (cleanSql s) = false) := by
      intro hc
      exact hcap ((capNeeded_iff (cleanSql s)).mpr hc)
    have hcap' : capNeeded (cleanSql s) = false := Bool.eq_false_iff.mpr hcap
    constructor
    · simp [validate, hcond, hcap', hiff]
    · simp only [validate, hcond, Bool.false_eq_true, if_false, hcap']
      constructor
      · intro hm
        exact absurd rfl (hcapMsg _ hm)
      · intro hc
        exact absurd hc hiff

/-- C5 witness: `SELECT * FROM customers` has no limit, aggregate or
grouping, so it receives the cap and the cap warning. -/
theorem validate_cap_characterisation_witness :
    stripWs (chars "SELECT * FROM customers") ≠ [] ∧
    ((validate (chars "SELECT * FROM customers")).sql =
      if hasLimitWord (cleanSql (chars "SELECT * FROM customers")) = false ∧
          aggHit (cleanSql (chars "SELECT * FROM customers")) = false ∧
          groupByHit (cleanSql (chars "SELECT * FROM customers")) = false
      then rstripSemis (cleanSql (chars "SELECT * FROM customers")) ++ chars " LIMIT 1000"
      else cleanSql (chars "SELECT * FROM customers")) ∧
    ((chars "Added LIMIT 1000 to prevent large result sets") ∈
        (validate (chars "SELECT * FROM customers")).warnings ↔
      (hasLimitWord (cleanSql (chars "SELECT * FROM customers")) = false ∧
        aggHit (cleanSql (chars "SELECT * FROM customers")) = false ∧
        groupByHit (cleanSql (chars "SELECT * FROM customers")) = false)) :=
  ⟨by decide, validate_cap_characterisation _ (by decide)⟩

/-- C9 counterexample: an input whose comment stripping leaves a residual
`--` token.  The first validation leaves its `LIMIT 5` clause untouched,
but re-validating the returned SQL strips the residual line comment and
the `LIMIT 5` with it, and then injects `LIMIT 1000`: re-validation is not
idempotent and changes the limit clause. -/
theorem validate_revalidation_changes_limit :
    hasLimitWord (cleanSql (chars "SELECT 1 ;-/*x*/- LIMIT 5")) = true ∧
    (validate (chars "SELECT 1 ;-/*x*/- LIMIT 5")).sql = chars "SELECT 1 ;-- LIMIT 5" ∧
    (validate ((validate (chars "SELECT 1 ;-/*x*/- LIMIT 5")).sql)).sql =
      chars "SELECT 1 LIMIT 1000" ∧
    (validate ((validate (chars "SELECT 1 ;-/*x*/- LIMIT 5")).sql)).sql ≠
      (validate (chars "SELECT 1 ;-/*x*/- LIMIT 5")).sql := by
  refine ⟨by decide, by decide, by decide, by decide⟩

/-- C9 (amended): validating a query whose cleaned text already contains a
`LIMIT` word leaves the cleaned text untouched (no second cap is ever
appended), and re-validating the SQL returned by `validate` returns it
unchanged whenever that SQL is itself a fixed point of cleaning — which
holds for all inputs except those whose comment stripping leaves residual
comment tokens in the cleaned text. -/
theorem validate_cap_idempotent (s : List Char) :
    (stripWs s ≠ [] → hasLimitWord (cleanSql s) = true → (validate s).sql = cleanSql s) ∧
    (cleanSql ((validate s).sql) = (validate s).sql →
      (validate ((validate s).sql)).sql = (validate s).sql) := by
  constructor
  · intro h hlim
    have hcond := notEmptyCond h
    have hcap : capNeeded (cleanSql s) = false := by
      simp [capNeeded, hlim]
    simp [validate, hcond, hcap]
  · intro hfix
    by_cases hcond : (s.isEmpty || (stripWs s).isEmpty) = true
    · have ht : (validate s).sql = [] := by simp [validate, hcond]
      rw [ht] at hfix ⊢
      simp [validate]
    · have hcond' : (s.isEmpty || (stripWs s).isEmpty) = false :=
        Bool.eq_false_iff.mpr hcond
      have htdef : (validate s).sql =
          (if capNeeded (cleanSql s) then rstripSemis (cleanSql s) ++ chars " LIMIT 1000"
           else cleanSql s) := by
        simp [validate, hcond']
      have hcapT : capNeeded ((validate s).sql) = false := by
        by_cases hcap : capNeeded (cleanSql s) = true
        · have hlimT : hasLimitWord ((validate s).sql) = true := by
            rw [htdef, if_pos hcap]
            have hsuffix : chars " LIMIT 1000" = ' ' :: chars "LIMIT 1000" := by decide
            rw [hsuffix]
            exact wbHitAux_append_of_tail (chars "limit") ' ' (chars "LIMIT 1000")
              (by decide) none (rstripSemis (cleanSql s))
          simp [capNeeded, hlimT]
        · have hcap' : capNeeded (cleanSql s) = false := Bool.eq_false_iff.mpr hcap
          rw [htdef, if_neg (by simp [hcap'])]
          exact hcap'
      have htne : (validate s).sql ≠ [] := by
        rw [htdef]
        by_cases hcap : capNeeded (cleanSql s) = true
        · rw [if_pos hcap]
          intro he
          rcases List.append_eq_nil.mp he with ⟨_, h2⟩
          exact absurd h2 (by decide)
        · have hcap' : capNeeded (cleanSql s) = false := Bool.eq_false_iff.mpr hcap
          rw [if_neg (by simp [hcap'])]
          intro he
          rw [he] at hcap'
          exact absurd hcap' (by decide)
      have hst : stripWs ((validate s).sql) = (validate s).sql := by
        conv_lhs => rw [← hfix]
        rw [cleanSql, stripWs_idem, ← cleanSql]
        exact hfix
      have hcond2 : ((validate s).sql.isEmpty || (stripWs ((validate s).sql)).isEmpty) = false := by
        rw [hst]
        cases hE : (validate s).sql with
        | nil => exact absurd hE htne
        | cons a l => simp
      rw [validate, if_neg (by simp [hcond2])]
      simp only [hfix, hcapT, Bool.false_eq_true, if_false]

/-- C9 witness: an already-limited query is left untouched and re-validates
to itself. -/
theorem validate_cap_idempotent_witness :
    (validate (chars "SELECT x FROM t LIMIT 5")).sql =
      cleanSql (chars "SELECT x FROM t LIMIT 5") ∧
    (validate ((validate (chars "SELECT x FROM t LIMIT 5")).sql)).sql =
      (validate (chars "SELECT x FROM t LIMIT 5")).sql :=
  ⟨(validate_cap_idempotent (chars "SELECT x FROM t LIMIT 5")).1 (by decide) (by decide),
   (validate_cap_idempotent (chars "SELECT x FROM t LIMIT 5")).2 (by decide)⟩

/-! ## Association lists with Python dict semantics

Python dicts preserve insertion order; assignment replaces in place,
deletion removes the single binding.  Keys are always strings here. -/

def alookup {β : Type} (k : List Char) : List ((List Char) × β) → Option β
  | [] => none
  | (k2, v) :: rest => if k2 = k then some v else alookup k rest

def aset {β : Type} (k : List Char) (v : β) : List ((List Char) × β) → List ((List Char) × β)
  | [] => [(k, v)]
  | (k2, v2) :: rest => if k2 = k then (k, v) :: rest else (k2, v2) :: aset k v rest

def aremove {β : Type} (k : List Char) : List ((List Char) × β) → List ((List Char) × β)
  | [] => []
  | (k2, v2) :: rest => if k2 = k then rest else (k2, v2) :: aremove k rest

def akeys {β : Type} (st : List ((List Char) × β)) : List (List Char) := st.map Prod.fst

theorem akeys_cons {β : Type} (k2 : List Char) (v2 : β)
    (rest : List ((List Char) × β)) :
    akeys ((k2, v2) :: rest) = k2 :: akeys rest := rfl

theorem alookup_aset_self {β : Type} (k : List Char) (v : β)
    (st : List ((List Char) × β)) : alookup k (aset k v st) = some v := by
  induction st with
  | nil => simp [aset, alookup]
  | cons p rest ih =>
      obtain ⟨k2, v2⟩ := p
      simp only [aset]
      by_cases hk : k2 = k
      · rw [if_pos hk]
        simp [alookup]
      · rw [if_neg hk]
        simp only [alookup]
        rw [if_neg hk]
        exact ih

theorem alookup_eq_none_of_not_mem {β : Type} (k : List Char)
    (st : List ((List Char) × β)) (h : k ∉ akeys st) : alookup k st = none := by
  induction st with
  | nil => rfl
  | cons p rest ih =>
      obtain ⟨k2, v2⟩ := p
      rw [akeys_cons] at h
      have hk : k2 ≠ k := fun e => h (e ▸ List.mem_cons_self _ _)
      have hrest : k ∉ akeys rest := fun hm => h (List.mem_cons_of_mem _ hm)
      simp only [alookup]
      rw [if_neg hk]
      exact ih hrest

theorem mem_akeys_aset {β : Type} (x k : List Char) (v : β)
    (st : List ((List Char) × β)) (h : x ∈ akeys (aset k v st)) :
    x = k ∨ x ∈ akeys st := by
  induction st with
  | nil =>
      simp only [aset, akeys_cons] at h
      rcases List.mem_cons.mp h with he | he
      · exact Or.inl he
      · exact absurd he (List.not_mem_nil x)
  | cons p rest ih =>
      obtain ⟨k2, v2⟩ := p
      simp only [aset] at h
      rw [akeys_cons]
      by_cases hk : k2 = k
      · rw [if_pos hk, akeys_cons] at h
        rcases List.mem_cons.mp h with he | he
        · exact Or.inl he
        · exact Or.inr (List.mem_cons_of_mem _ he)
      · rw [if_neg hk, akeys_cons] at h
        rcases List.mem_cons.mp h with he | he
        · exact Or.inr (he ▸ List.mem_cons_self _ _)
        · rcases ih he with h2 | h2
          · exact Or.inl h2
          · exact Or.inr (List.mem_cons_of_mem _ h2)

theorem nodup_akeys_aset {β : Type} (k : List Char) (v : β)
    (st : List ((List Char) × β)) (h : (akeys st).Nodup) :
    (akeys (aset k v st)).Nodup := by
  induction st with
  | nil =>
      simp only [aset, akeys_cons]
      exact List.nodup_cons.mpr ⟨List.not_mem_nil k, List.nodup_nil⟩
  | cons p rest ih =>
      obtain ⟨k2, v2⟩ := p
      rw [akeys_cons, List.nodup_cons] at h
      simp only [aset]
      by_cases hk : k2 = k
      · rw [if_pos hk, akeys_cons, List.nodup_cons]
        exact ⟨hk ▸ h.1, h.2⟩
      · rw [if_neg hk, akeys_cons, List.nodup_cons]
        refine ⟨?_, ih h.2⟩
        intro hmem
        rcases mem_akeys_aset k2 k v rest hmem with he | he
        · exact hk he
        · exact h.1 he

theorem akeys_aremove_sublist {β : Type} (k : List Char)
    (st : List ((List Char) × β)) : (akeys (aremove k st)).Sublist (akeys st) := by
  induction st with
  | nil => exact List.Sublist.refl _
  | cons p rest ih =>
      obtain ⟨k2, v2⟩ := p
      simp only [aremove]
      by_cases hk : k2 = k
      · rw [if_pos hk, akeys_cons]
        exact List.sublist_cons_self _ _
      · rw [if_neg hk, akeys_cons, akeys_cons]
        exact List.Sublist.cons₂ k2 ih

theorem nodup_akeys_aremove {β : Type} (k : List Char)
    (st : List ((List Char) × β)) (h : (akeys st).Nodup) :
    (akeys (aremove k st)).Nodup :=
  (akeys_aremove_sublist k st).nodup h

theorem alookup_aremove_self {β : Type} (k : List Char)
    (st : List ((List Char) × β)) (h : (akeys st).Nodup) :
    alookup k (aremove k st) = none := by
  induction st with
  | nil => rfl
  | cons p rest ih =>
      obtain ⟨k2, v2⟩ := p
      rw [akeys_cons, List.nodup_cons] at h
      simp only [aremove]
      by_cases hk : k2 = k
      · rw [if_pos hk]
        exact alookup_eq_none_of_not_mem k rest (hk ▸ h.1)
      · rw [if_neg hk]
        simp only [alookup]
        rw [if_neg hk]
        exact ih h.2

/-! ## The result cache (`services/cache.py`) -/

/-- The execution contract's result shape (spec section 6): column names,
rows, row count.  Cell values are modelled as rendered text. -/
structure ExecutionResult where
  columns : List (List Char)
  rows : List (List (List Char))
  row_count : Nat
deriving DecidableEq

/-- `CacheEntry`.  The `result` payload is an `Option` because the Python
code stores arbitrary dicts and tests them for truthiness: `none` models
an empty/absent payload (falsy), `some r` a non-empty result. -/
structure CacheEntry where
  question : List Char
  sql : List Char
  result : Option ExecutionResult
  created_at : Nat
  hit_count : Nat
deriving DecidableEq

/-- `QueryCache._normalize_question`: lower-case and strip. -/
def normalizeQuestion (q : List Char) : List Char := stripWs (q.map lc)

/-- `QueryCache._hash_key`: the source hashes the normalized question with
MD5 and keeps 16 hex characters; the digest is modelled as the normalized
text itself (an injective keying, which is how the source treats it). -/
def hashKey (q : List Char) : List Char := normalizeQuestion q

/-- The dict returned by `QueryCache.get` on a hit. -/
structure CachedPayload where
  sql : List Char
  result : Option ExecutionResult
  cached : Bool
deriving DecidableEq

structure QueryCache where
  max_size : Nat
  ttl_seconds : Nat
  store : List ((List Char) × CacheEntry)
deriving DecidableEq

/-- `QueryCache.get`: expired entries (strictly older than the TTL) are
deleted and reported absent; hits bump the hit counter and return the
payload with `cached = true`. -/
def QueryCache.get (c : QueryCache) (question : List Char) (now : Nat) :
    Option CachedPayload × QueryCache :=
  let key := hashKey question
  match alookup key c.store with
  | none => (none, c)
  | some e =>
      if c.ttl_seconds < now - e.created_at then
        (none, { c with store := aremove key c.store })
      else
        (some { sql := e.sql, result := e.result, cached := true },
         { c with store := aset key ({ e with hit_count := e.hit_count + 1 }) c.store })

/-- First key holding the minimal `created_at` (Python
`min(keys, key=lambda k: cache[k].created_at)`). -/
def oldestAux : List ((List Char) × CacheEntry) → Option ((List Char) × Nat)
  | [] => none
  | (k, e) :: rest =>
      match oldestAux rest with
      | none => some (k, e.created_at)
      | some (k2, c2) =>
          if e.created_at ≤ c2 then some (k, e.created_at) else some (k2, c2)

/-- The `while len >= max_size` eviction loop of `QueryCache.set`; the fuel
bounds the iterations (each one removes an entry). -/
def evictWhile : Nat → Nat → List ((List Char) × CacheEntry) → List ((List Char) × CacheEntry)
  | 0, _, store => store
  | fuel + 1, maxSize, store =>
      if maxSize ≤ store.length then
        match oldestAux store with
        | some (k, _) => evictWhile fuel maxSize (aremove k store)
        | none => store
      else store

/-- `QueryCache.set`: evict oldest entries down to capacity, then insert a
fresh entry stamped with the current time. -/
def QueryCache.set (c : QueryCache) (question sql : List Char)
    (result : Option ExecutionResult) (now : Nat) : QueryCache :=
  let store1 := evictWhile (c.store.length + 1) c.max_size c.store
  let entry : CacheEntry :=
    { question := question, sql := sql, result := result,
      created_at := now, hit_count := 0 }
  { c with store := aset (hashKey question) entry store1 }

theorem QueryCache_set_store (c : QueryCache) (q s : List Char)
    (r : Option ExecutionResult) (t : Nat) :
    (c.set q s r t).store = aset (hashKey q)
      ({ question := q, sql := s, result := r, created_at := t, hit_count := 0 })
      (evictWhile (c.store.length + 1) c.max_size c.store) := rfl

theorem QueryCache_set_ttl (c : QueryCache) (q s : List Char)
    (r : Option ExecutionResult) (t : Nat) :
    (c.set q s r t).ttl_seconds = c.ttl_seconds := rfl

theorem nodup_evictWhile (fuel maxSize : Nat) (st : List ((List Char) × CacheEntry))
    (h : (akeys st).Nodup) : (akeys (evictWhile fuel maxSize st)).Nodup := by
  induction fuel generalizing st with
  | zero => exact h
  | succ fuel ih =>
      rw [evictWhile]
      by_cases hs : maxSize ≤ st.length
      · rw [if_pos hs]
        cases ho : oldestAux st with
        | none => exact h
        | some p =>
            obtain ⟨k, t⟩ := p
            exact ih _ (nodup_akeys_aremove k st h)
      · rw [if_neg hs]
        exact h

/-! ## Claim C8: cache round trip -/

/-- C8: after `set q sql r` at time `t1`, a `get q` at time `t2` within the
TTL returns the payload with `r` unchanged (and `cached = true`), and a
`get q` after the TTL has elapsed returns absent and removes the entry
from the store.  The key-uniqueness hypothesis is the representation
invariant of the Python dict backing the store. -/
theorem cache_set_get_roundtrip (c : QueryCache) (q s : List Char)
    (r : Option ExecutionResult) (t1 t2 : Nat)
    (hnd : (akeys c.store).Nodup) :
    (t2 - t1 ≤ c.ttl_seconds →
       ((c.set q s r t1).get q t2).1 =
         some { sql := s, result := r, cached := true }) ∧
    (c.ttl_seconds < t2 - t1 →
       ((c.set q s r t1).get q t2).1 = none ∧
       alookup (hashKey q) ((c.set q s r t1).get q t2).2.store = none) := by
  have hlook : alookup (hashKey q) ((c.set q s r t1).store) =
      some { question := q, sql := s, result := r, created_at := t1, hit_count := 0 } := by
    rw [QueryCache_set_store]
    exact alookup_aset_self _ _ _
  have hnd2 : (akeys ((c.set q s r t1).store)).Nodup := by
    rw [QueryCache_set_store]
    exact nodup_akeys_aset _ _ _ (nodup_evictWhile _ _ _ hnd)
  constructor
  · intro hle
    simp only [QueryCache.get, hlook]
    rw [if_neg (by exact Nat.not_lt.mpr hle)]
  · intro hgt
    simp only [QueryCache.get, hlook]
    rw [if_pos (by exact hgt)]
    exact ⟨rfl, alookup_aremove_self _ _ hnd2⟩

/-- C8 witness: round trip on an empty cache, hit at `t2 = 100`, expiry at
`t2 = 2000` with the default 1800-second TTL. -/
theorem cache_set_get_roundtrip_witness :
    ((QueryCache.get (QueryCache.set ⟨500, 1800, []⟩ (chars "Show revenue") (chars "SELECT 1")
        (some ⟨[chars "a"], [[chars "1"]], 1⟩) 0) (chars "Show revenue") 100).1 =
      some { sql := chars "SELECT 1", result := some ⟨[chars "a"], [[chars "1"]], 1⟩,
             cached := true }) ∧
    ((QueryCache.get (QueryCache.set ⟨500, 1800, []⟩ (chars "Show revenue") (chars "SELECT 1")
        (some ⟨[chars "a"], [[chars "1"]], 1⟩) 0) (chars "Show revenue") 2000).1 = none) :=
  ⟨(cache_set_get_roundtrip ⟨500, 1800, []⟩ (chars "Show revenue") (chars "SELECT 1")
      (some ⟨[chars "a"], [[chars "1"]], 1⟩) 0 100 (by decide)).1 (by decide),
   ((cache_set_get_roundtrip ⟨500, 1800, []⟩ (chars "Show revenue") (chars "SELECT 1")
      (some ⟨[chars "a"], [[chars "1"]], 1⟩) 0 2000 (by decide)).2 (by decide)).1⟩

/-! ## The rate limiter (`services/ai_gateway.py`, class `RateLimiter`) -/

structure RateLimiter where
  rate_per_minute : Nat
  rate_per_hour : Nat
  minute_tokens : List ((List Char) × List Nat)
  hour_tokens : List ((List Char) × List Nat)
deriving DecidableEq

/-- `RateLimiter._clean_old_tokens`: keep timestamps with
`now - t < window` (truncated subtraction agrees with the Python float
comparison for past and future timestamps alike). -/
def cleanOldTokens (now window : Nat) (tokens : List Nat) : List Nat :=
  tokens.filter (fun t => now - t < window)

/-- `RateLimiter.check`: prune both windows for the user (the pruned lists
are stored back), then admit iff both pruned windows are strictly below
their limits. -/
def RateLimiter.check (rl : RateLimiter) (uid : List Char) (now : Nat) :
    Bool × RateLimiter :=
  let m := cleanOldTokens now 60 ((alookup uid rl.minute_tokens).getD [])
  let h := cleanOldTokens now 3600 ((alookup uid rl.hour_tokens).getD [])
  (decide (m.length < rl.rate_per_minute) && decide (h.length < rl.rate_per_hour),
   { rl with minute_tokens := aset uid m rl.minute_tokens,
             hour_tokens := aset uid h rl.hour_tokens })

/-- `RateLimiter.consume`: append the current timestamp to both windows. -/
def RateLimiter.consume (rl : RateLimiter) (uid : List Char) (now : Nat) :
    RateLimiter :=
  { rl with
    minute_tokens :=
      aset uid (((alookup uid rl.minute_tokens).getD []) ++ [now]) rl.minute_tokens,
    hour_tokens :=
      aset uid (((alookup uid rl.hour_tokens).getD []) ++ [now]) rl.hour_tokens }

/-- The admission protocol of spec section 4.5 and `AIGateway.invoke`:
`consume` is called exactly after a successful `check`. -/
def checkConsume (rl : RateLimiter) (uid : List Char) (now : Nat) :
    Bool × RateLimiter :=
  let r := rl.check uid now
  if r.1 then (true, r.2.consume uid now) else (false, r.2)

/-! ## Claim C7: rate limiter admission -/

/-- C7: `check` prunes from both per-user windows every timestamp older
than the window (60 s and 3600 s) — the stored lists become the pruned
ones — and admits iff the number of remaining timestamps in each window is
strictly below its limit; consequently, with a minute limit of 3, four
successive check-then-consume calls for one user within one minute yield
admit, admit, admit, deny. -/
theorem rateLimiter_check_characterisation (rl : RateLimiter) (uid : List Char)
    (now : Nat) :
    ((rl.check uid now).1 =
      (decide (((alookup uid rl.minute_tokens).getD []).countP
          (fun t => now - t < 60) < rl.rate_per_minute) &&
       decide (((alookup uid rl.hour_tokens).getD []).countP
          (fun t => now - t < 3600) < rl.rate_per_hour))) ∧
    (alookup uid (rl.check uid now).2.minute_tokens =
       some (((alookup uid rl.minute_tokens).getD []).filter (fun t => now - t < 60))) ∧
    (alookup uid (rl.check uid now).2.hour_tokens =
       some (((alookup uid rl.hour_tokens).getD []).filter (fun t => now - t < 3600))) ∧
    ((checkConsume ⟨3, 1000, [], []⟩ (chars "alice") 0).1 = true ∧
     (checkConsume (checkConsume ⟨3, 1000, [], []⟩ (chars "alice") 0).2
        (chars "alice") 10).1 = true ∧
     (checkConsume (checkConsume (checkConsume ⟨3, 1000, [], []⟩ (chars "alice") 0).2
        (chars "alice") 10).2 (chars "alice") 20).1 = true ∧
     (checkConsume (checkConsume (checkConsume (checkConsume ⟨3, 1000, [], []⟩
        (chars "alice") 0).2 (chars "alice") 10).2 (chars "alice") 20).2
        (chars "alice") 30).1 = false) := by
  refine ⟨?_, ?_, ?_, by decide, by decide, by decide, by decide⟩
  · simp [RateLimiter.check, cleanOldTokens, List.countP_eq_length_filter]
  · simp [RateLimiter.check, cleanOldTokens, alookup_aset_self]
  · simp [RateLimiter.check, cleanOldTokens, alookup_aset_self]

/-! ## The AI gateway (`services/ai_gateway.py`) -/

structure GatewayConfig where
  primary_provider : List Char
  primary_model : List Char
  fallback_provider : Option (List Char)
  fallback_model : Option (List Char)
  rate_limit_per_minute : Nat
  rate_limit_per_hour : Nat
  cache_enabled : Bool
  cache_ttl_seconds : Nat
  max_retries : Nat
  track_usage : Bool

/-- `ResponseCache` (LRU cache for LLM responses).  The SHA-256 key of
`model:prompt` is modelled as that text itself (injective keying). -/
structure ResponseCache where
  max_size : Nat
  ttl_seconds : Nat
  cacheMap : List ((List Char) × ((List Char) × Nat))
  access_order : List (List Char)
deriving DecidableEq

def rcKey (prompt model : List Char) : List Char := model ++ chars ":" ++ prompt

/-- Python `list.remove`: drop the first occurrence only. -/
def removeFirst (k : List Char) : List (List Char) → List (List Char)
  | [] => []
  | x :: xs => if x = k then xs else x :: removeFirst k xs

/-- `ResponseCache.get`: fresh hits move the key to the back of the access
order; expired entries are deleted. -/
def ResponseCache.get (rc : ResponseCache) (prompt model : List Char) (now : Nat) :
    Option (List Char) × ResponseCache :=
  let key := rcKey prompt model
  match alookup key rc.cacheMap with
  | some rt =>
      if now - rt.2 < rc.ttl_seconds then
        (some rt.1, { rc with access_order := removeFirst key rc.access_order ++ [key] })
      else
        (none, { rc with cacheMap := aremove key rc.cacheMap,
                         access_order := removeFirst key rc.access_order })
  | none => (none, rc)

/-- The `while len(cache) >= max_size and access_order` eviction loop of
`ResponseCache.set`: pop the front of the access order and delete it from
the map if present. -/
def rcEvictAux : Nat → ResponseCache → ResponseCache
  | 0, rc => rc
  | fuel + 1, rc =>
      if rc.max_size ≤ rc.cacheMap.length then
        match rc.access_order with
        | [] => rc
        | k :: rest =>
            rcEvictAux fuel { rc with access_order := rest, cacheMap := aremove k rc.cacheMap }
      else rc

/-- `ResponseCache.set`. -/
def ResponseCache.set (rc : ResponseCache) (prompt model resp : List Char)
    (now : Nat) : ResponseCache :=
  let key := rcKey prompt model
  let rc1 := rcEvictAux rc.access_order.length rc
  { rc1 with cacheMap := aset key (resp, now) rc1.cacheMap,
             access_order := rc1.access_order ++ [key] }

/-- The dict returned by `AIGateway.invoke` / `_invoke_with_retry`
(missing keys modelled by their defaults). -/
structure InvokeResult where
  content : List Char
  cached : Bool
  provider : List Char
  model : List Char
  error : Option (List Char)
deriving DecidableEq

/-- `AIGateway._invoke_with_retry`, with the provider call abstracted as
the oracle `llmTry` (the external generation backend; the source's retry
loop repeats a deterministic call and its exponential backoff only
sleeps, and an unconfigured provider is an `Except.error` of the oracle). -/
def invokeWithRetry
    (llmTry : List Char → List Char → List Char → Except (List Char) (List Char))
    (provider model prompt : List Char) : InvokeResult :=
  match llmTry provider model prompt with
  | Except.ok content =>
      { content := content, cached := false, provider := provider,
        model := model, error := none }
  | Except.error e =>
      { content := [], cached := false, provider := provider,
        model := model, error := some e }

/-- The part of `AIGateway.invoke` after the rate-limit gate and cache
lookup: consume a token, call the primary provider, fall back on error,
cache a successful response.  Returns the result, the updated limiter and
response cache, and the log of (provider, prompt) backend calls. -/
def invokeMain (cfg : GatewayConfig) (rl : RateLimiter) (rc : ResponseCache)
    (llmTry : List Char → List Char → List Char → Except (List Char) (List Char))
    (prompt uid model : List Char) (now : Nat) :
    InvokeResult × RateLimiter × ResponseCache × List ((List Char) × (List Char)) :=
  let rl2 := rl.consume uid now
  let result1 := invokeWithRetry llmTry cfg.primary_provider cfg.primary_model prompt
  let step2 :=
    if result1.error.isSome && cfg.fallback_provider.isSome then
      (invokeWithRetry llmTry (cfg.fallback_provider.getD []) (cfg.fallback_model.getD []) prompt,
       [(cfg.primary_provider, prompt), (cfg.fallback_provider.getD [], prompt)])
    else (result1, [(cfg.primary_provider, prompt)])
  let rc2 :=
    if step2.1.error.isNone && cfg.cache_enabled then
      rc.set prompt model step2.1.content now
    else rc
  (step2.1, rl2, rc2, step2.2)

/-- `AIGateway.invoke`: rate-limit gate first (an error dict, before the
cache lookup, without consuming a token), then cached response (an empty
cached string is falsy and treated as a miss), then the backend call. -/
def AIGateway.invoke (cfg : GatewayConfig) (rl : RateLimiter) (rc : ResponseCache)
    (llmTry : List Char → List Char → List Char → Except (List Char) (List Char))
    (prompt uid : List Char) (use_cache : Bool) (now : Nat) :
    InvokeResult × RateLimiter × ResponseCache × List ((List Char) × (List Char)) :=
  let model := cfg.primary_model
  let chk := rl.check uid now
  if chk.1 = false then
    ({ content := [], cached := false, provider := [], model := [],
       error := some (chars "Rate limit exceeded. Please try again later.") },
     chk.2, rc, [])
  else
    let cacheTry :=
      if use_cache && cfg.cache_enabled then rc.get prompt model now else (none, rc)
    match cacheTry with
    | (some content, rc1) =>
        if content.isEmpty then invokeMain cfg chk.2 rc1 llmTry prompt uid model now
        else
          ({ content := content, cached := true, provider := cfg.primary_provider,
             model := model, error := none }, chk.2, rc1, [])
    | (none, rc1) => invokeMain cfg chk.2 rc1 llmTry prompt uid model now

/-- C3 (amended, gateway side): when the per-user admission check fails,
`AIGateway.invoke` returns an error dict whose message mentions rate
limiting, with empty content; it performs no backend call, consumes no
token (the limiter state changes only by the check's pruning), and leaves
the response cache untouched — the gate precedes the cache lookup. -/
theorem gateway_rate_limited (cfg : GatewayConfig) (rl : RateLimiter)
    (rc : ResponseCache)
    (llmTry : List Char → List Char → List Char → Except (List Char) (List Char))
    (prompt uid : List Char) (use_cache : Bool) (now : Nat)
    (h : (rl.check uid now).1 = false) :
    AIGateway.invoke cfg rl rc llmTry prompt uid use_cache now =
      ({ content := [], cached := false, provider := [], model := [],
         error := some (chars "Rate limit exceeded. Please try again later.") },
       (rl.check uid now).2, rc, []) := by
  simp [AIGateway.invoke, h]

/-- A limiter whose minute window for user `alice` is exhausted
(minute limit 3, three timestamps within the last minute). -/
def rlExhausted : RateLimiter :=
  ⟨3, 1000, [(chars "alice", [0, 10, 20])], [(chars "alice", [0, 10, 20])]⟩

/-- The default gateway configuration of the source (rate limits replaced
by the scenario's minute limit 3). -/
def cfgScenario : GatewayConfig :=
  { primary_provider := chars "openai", primary_model := chars "gpt-4",
    fallback_provider := some (chars "openai"),
    fallback_model := some (chars "gpt-3.5-turbo"),
    rate_limit_per_minute := 3, rate_limit_per_hour := 1000,
    cache_enabled := true, cache_ttl_seconds := 3600,
    max_retries := 3, track_usage := true }

def rcEmpty : ResponseCache := ⟨1000, 3600, [], []⟩

def llmConst : List Char → List Char → List Char → Except (List Char) (List Char) :=
  fun _ _ _ => Except.ok (chars "SELECT name FROM customers")

/-- C3 witness (amended, gateway side): the fourth request within a minute
is rejected by the gateway with a rate-limiting error and no backend
call. -/
theorem gateway_rate_limited_witness :
    (rlExhausted.check (chars "alice") 30).1 = false ∧
    AIGateway.invoke cfgScenario rlExhausted rcEmpty llmConst
        (chars "prompt") (chars "alice") true 30 =
      ({ content := [], cached := false, provider := [], model := [],
         error := some (chars "Rate limit exceeded. Please try again later.") },
       (rlExhausted.check (chars "alice") 30).2, rcEmpty, []) :=
  ⟨by decide,
   gateway_rate_limited cfgScenario rlExhausted rcEmpty llmConst
     (chars "prompt") (chars "alice") true 30 (by decide)⟩

/-! ## Conversation memory (`services/memory.py`) -/

/-- The metadata dict attached to a message; the orchestrator only ever
stores the keys `sql` and `result_summary`. -/
structure MsgMeta where
  sql : Option (List Char)
  result_summary : Option (List Char)
deriving DecidableEq

/-- A conversation message (the wall-clock timestamp, which no logic ever
reads, is not modelled). -/
structure Message where
  role : List Char
  content : List Char
  metadata : MsgMeta
deriving DecidableEq

/-- `ConversationContext`. -/
structure ConversationContext where
  entities : List (List Char)
  filters : List (List Char)
  time_range : Option (List Char)
  aggregations : List (List Char)
  last_sql : Option (List Char)
  last_result_summary : Option (List Char)
deriving DecidableEq

def emptyContext : ConversationContext := ⟨[], [], none, [], none, none⟩

structure ConversationMemory where
  max_turns : Nat
  max_tokens : Nat
  sessions : List ((List Char) × List Message)
  contexts : List ((List Char) × ConversationContext)
deriving DecidableEq

/-- `ConversationMemory._get_session_id`: empty session id (Python `None`
or `""`, both falsy) collapses to the bare user id. -/
def getSessionId (uid sid : List Char) : List Char :=
  if sid.isEmpty then uid else uid ++ chars ":" ++ sid

/-- The business-term keyword table of `_extract_context`. -/
def businessTerms : List (List Char) :=
  [chars "revenue", chars "doanh thu", chars "sales", chars "bán hàng",
   chars "customer", chars "khách hàng", chars "order", chars "đơn hàng",
   chars "product", chars "sản phẩm", chars "category", chars "danh mục"]

/-- The time-range phrase table of `_extract_context` (insertion order). -/
def timePatterns : List ((List Char) × (List Char)) :=
  [(chars "last month", chars "last_month"),
   (chars "tháng trước", chars "last_month"),
   (chars "this year", chars "this_year"),
   (chars "năm nay", chars "this_year"),
   (chars "last year", chars "last_year"),
   (chars "năm trước", chars "last_year"),
   (chars "today", chars "today"),
   (chars "hôm nay", chars "today")]

/-- `ConversationMemory._extract_context` on a user turn: extend the topic
set with business terms found in the lowered text (deduplicated, in table
order), overwrite the time range with the last matching phrase, extend the
aggregation hints.  (The reference-word detection in the source is
computed and discarded; the substring tests run on the lowered content, so
the case-insensitive scanner applied to lower-case terms is exact.) -/
def extractContext (ctx : ConversationContext) (content : List Char) :
    ConversationContext :=
  let cl := content.map lc
  let ents := businessTerms.foldl (fun acc term =>
      if infixCI term cl && !(decide (term ∈ acc)) then acc ++ [term] else acc)
    ctx.entities
  let tr := timePatterns.foldl (fun acc p =>
      if infixCI p.1 cl then some p.2 else acc) ctx.time_range
  let ag1 :=
    if ([chars "total", chars "tổng", chars "sum"].any (fun w => infixCI w cl)) &&
        !(decide ((chars "sum") ∈ ctx.aggregations)) then
      ctx.aggregations ++ [chars "sum"]
    else ctx.aggregations
  let ag2 :=
    if ([chars "count", chars "đếm", chars "how many", chars "bao nhiêu"].any
          (fun w => infixCI w cl)) && !(decide ((chars "count") ∈ ag1)) then
      ag1 ++ [chars "count"]
    else ag1
  let ag3 :=
    if ([chars "average", chars "trung bình", chars "avg"].any (fun w => infixCI w cl)) &&
        !(decide ((chars "avg") ∈ ag2)) then
      ag2 ++ [chars "avg"]
    else ag2
  { ctx with entities := ents, time_range := tr, aggregations := ag3 }

/-- `deque(maxlen=max_turns)` append: drop from the front on overflow. -/
def pushBounded (maxT : Nat) (xs : List Message) (m : Message) : List Message :=
  let ys := xs ++ [m]
  if maxT < ys.length then ys.drop (ys.length - maxT) else ys

/-- `ConversationMemory.add_message`. -/
def addMessage (mem : ConversationMemory) (uid role content sid : List Char)
    (metadata : MsgMeta) : ConversationMemory :=
  let s := getSessionId uid sid
  let fresh := (alookup s mem.sessions).isNone
  let msgs0 := (alookup s mem.sessions).getD []
  let ctx0 := if fresh then emptyContext else (alookup s mem.contexts).getD emptyContext
  let msgs1 := pushBounded mem.max_turns msgs0 ⟨role, content, metadata⟩
  let ctx1 :=
    if role = chars "user" then extractContext ctx0 content
    else if role = chars "assistant" &&
        (metadata.sql.isSome || metadata.result_summary.isSome) then
      { ctx0 with
        last_sql := if metadata.sql.isSome then metadata.sql else ctx0.last_sql,
        last_result_summary :=
          if metadata.result_summary.isSome then metadata.result_summary
          else ctx0.last_result_summary }
    else ctx0
  { mem with sessions := aset s msgs1 mem.sessions, contexts := aset s ctx1 mem.contexts }

/-- `ConversationMemory.get_history` (`messages[-n:]` slicing; a zero
`max_messages` is falsy in Python and means no slicing). -/
def getHistory (mem : ConversationMemory) (uid sid : List Char)
    (maxMessages : Option Nat) : List Message :=
  let s := getSessionId uid sid
  match alookup s mem.sessions with
  | none => []
  | some ms =>
      match maxMessages with
      | some n => if n = 0 then ms else ms.drop (ms.length - n)
      | none => ms

/-- `ConversationMemory.get_context`. -/
def getContext (mem : ConversationMemory) (uid sid : List Char) :
    ConversationContext :=
  (alookup (getSessionId uid sid) mem.contexts).getD emptyContext

def joinWith (sep : List Char) (xs : List (List Char)) : List Char :=
  List.intercalate sep xs

/-- `ConversationMemory.get_context_for_prompt`: render the derived context
and the last few turns.  Python truthiness of the optional fields: an
empty `last_sql` or `time_range` string is skipped like `None`. -/
def getContextForPrompt (mem : ConversationMemory) (uid sid : List Char) :
    List Char :=
  let ctx := getContext mem uid sid
  let history := getHistory mem uid sid (some 5)
  let lines := [chars "## Conversation Context"]
  let lines := lines ++
    (if ctx.entities.isEmpty then []
     else [chars "- Topics discussed: " ++ joinWith (chars ", ") ctx.entities])
  let lines := lines ++
    (match ctx.time_range with
     | some t => if t.isEmpty then [] else [chars "- Time range: " ++ t]
     | none => [])
  let lines := lines ++
    (if ctx.aggregations.isEmpty then []
     else [chars "- Aggregations: " ++ joinWith (chars ", ") ctx.aggregations])
  let lines := lines ++
    (match ctx.last_sql with
     | some q => if q.isEmpty then [] else [chars "- Last SQL: " ++ q.take 200 ++ chars "..."]
     | none => [])
  let lines := lines ++
    (if history.isEmpty then []
     else (chars "\n## Recent Messages") ::
       ((history.drop (history.length - 3)).map (fun m =>
         chars "- " ++ (if m.role = chars "user" then chars "User" else chars "Assistant") ++
         chars ": " ++ m.content.take 200)))
  joinWith (chars "\n") lines

/-! ## The supervisor workflow (`agents/supervisor.py`)

The LangGraph graph is acyclic and deterministic, so it is embedded as a
straight-line composition of the node functions, following the conditional
edges exactly.  The external collaborators (intent classifier, SQL/report/
insight generators, database connector, chart-config builder) are oracle
parameters; an oracle returning `none` models the exception branch of the
corresponding `try/except`.  Every collaborator dispatch is logged as a
`CallEvent`. -/

/-- `IntentResult`: the orchestrator reads only `intent_type`; the other
pydantic fields (sub-intent, entities, confidence, …) never cross the node
boundary and are not modelled. -/
structure IntentResult where
  intent_type : List Char
deriving DecidableEq

/-- `SQLResult` (confidence in hundredths: the source's 1.0 / 0.9 / 0.85
become 100 / 90 / 85). -/
structure SQLResult where
  sql : List Char
  explanation : List Char
  confidence : Nat
deriving DecidableEq

/-- The dict returned by `ReportAgent.generate_report` as consumed by the
supervisor: `sql_queries`, `explanation`, optional `error`. -/
structure ReportOut where
  sql_queries : List (List Char)
  explanation : List Char
  error : Option (List Char)
deriving DecidableEq

/-- The dict returned by `InsightAgent.generate_insight` as consumed by
the supervisor: `sql_queries` and `summary`. -/
structure InsightOut where
  sql_queries : List (List Char)
  summary : List Char
deriving DecidableEq

/-- `FeedbackRecord` as written by `FeedbackService.record_query`
(timestamp not modelled; disk persistence is out of scope). -/
structure FeedbackRecord where
  question : List Char
  original_sql : List Char
  corrected_sql : Option (List Char)
  rating : Nat
  was_executed : Bool
  execution_success : Bool
  user_id : List Char
deriving DecidableEq

/-- The services held by the supervisor; `none` models a disabled service
(`use_cache=False` / `use_memory=False`). -/
structure Services where
  cache : Option QueryCache
  memory : Option ConversationMemory
  feedback : List FeedbackRecord

/-- External collaborators of one supervisor instance. -/
structure EnvOracles where
  intentOracle : List Char → Option IntentResult
  sqlGenOracle : List Char → Option SQLResult
  reportOracle : List Char → Option ReportOut
  insightOracle : List Char → Option InsightOut
  dbExec : Option (List Char → Option ExecutionResult)
  vizOracle : ExecutionResult → List Char → List Char

/-- `AgentState` (the workflow state dict). -/
structure AgentState where
  question : List Char
  user_id : List Char
  session_id : List Char
  intent : Option IntentResult
  sql_result : Option SQLResult
  validation : Option ValidationResult
  query_result : Option ExecutionResult
  visualization : Option (List Char)
  error : Option (List Char)
  messages : List (List Char)
  conversation_context : Option (List Char)

/-- Collaborator dispatches performed during one workflow run. -/
inductive CallEvent
  | intentCall (input : List Char)
  | genCall (input : List Char)
  | reportCall (input : List Char)
  | insightCall (input : List Char)
  | execCall (sql : List Char)
  | cacheWrite (question sql : List Char)
deriving DecidableEq

/-- The demo-mode result of `_execute_query` when no connector is set. -/
def demoResult : ExecutionResult :=
  { columns := [chars "id", chars "name", chars "value"],
    rows := [[chars "1", chars "Sample 1", chars "100"],
             [chars "2", chars "Sample 2", chars "200"],
             [chars "3", chars "Sample 3", chars "300"]],
    row_count := 3 }

/-- `SupervisorAgent._check_cache`: on a hit, copy the payload's result and
sql into the state (dropping the payload's `cached` flag). -/
def checkCacheNode (svc : Services) (now : Nat) (st : AgentState) :
    AgentState × Services :=
  match svc.cache with
  | none => (st, svc)
  | some c =>
      match c.get st.question now with
      | (some payload, c2) =>
          ({ st with query_result := payload.result,
                     sql_result := some { sql := payload.sql,
                                          explanation := chars "(cached result)",
                                          confidence := 100 } },
           { svc with cache := some c2 })
      | (none, c2) => (st, { svc with cache := some c2 })

/-- `SupervisorAgent._route_after_cache`: hit iff the stored result payload
is truthy. -/
def routeCacheHit (st : AgentState) : Bool := st.query_result.isSome

/-- `SupervisorAgent._load_memory`: render the context for the prompt, then
record the user turn. -/
def loadMemoryNode (svc : Services) (st : AgentState) : AgentState × Services :=
  match svc.memory with
  | none => (st, svc)
  | some mem =>
      let context := getContextForPrompt mem st.user_id st.session_id
      let mem2 := addMessage mem st.user_id (chars "user") st.question st.session_id ⟨none, none⟩
      ({ st with conversation_context := some context },
       { svc with memory := some mem2 })

/-- `SupervisorAgent._analyze_intent`: the classifier is called with the
question text only (not the conversation context). -/
def analyzeIntentNode (env : EnvOracles) (st : AgentState) :
    AgentState × List CallEvent :=
  match env.intentOracle st.question with
  | some intent => ({ st with intent := some intent }, [CallEvent.intentCall st.question])
  | none => ({ st with error := some (chars "Intent analysis failed") },
             [CallEvent.intentCall st.question])

/-- `SupervisorAgent._route_after_intent`. -/
def routeAfterIntent (st : AgentState) : List Char :=
  if st.error.isSome then chars "error"
  else
    match st.intent with
    | none => chars "error"
    | some intent =>
        if intent.intent_type = chars "data_retrieval" ||
            intent.intent_type = chars "query_assistance" then chars "data_retrieval"
        else if intent.intent_type = chars "report_generation" then chars "report_generation"
        else if intent.intent_type = chars "insight_generation" then chars "insight_generation"
        else chars "data_retrieval"

/-- `SupervisorAgent._generate_sql`: a non-empty conversation context is
prefixed to the question handed to the SQL generator. -/
def generateSqlNode (env : EnvOracles) (st : AgentState) :
    AgentState × List CallEvent :=
  let question :=
    match st.conversation_context with
    | some ctx =>
        if ctx.isEmpty then st.question
        else ctx ++ chars "\n\nCurrent question: " ++ st.question
    | none => st.question
  match env.sqlGenOracle question with
  | some r => ({ st with sql_result := some r }, [CallEvent.genCall question])
  | none => ({ st with error := some (chars "SQL generation failed") },
             [CallEvent.genCall question])

/-- `SupervisorAgent._generate_report`. -/
def generateReportNode (env : EnvOracles) (st : AgentState) :
    AgentState × List CallEvent :=
  match env.reportOracle st.question with
  | none => ({ st with error := some (chars "Report generation failed") },
             [CallEvent.reportCall st.question])
  | some rep =>
      match rep.sql_queries with
      | q :: _ =>
          ({ st with sql_result := some { sql := q, explanation := rep.explanation,
                                          confidence := 90 } },
           [CallEvent.reportCall st.question])
      | [] => ({ st with error := some (rep.error.getD (chars "No SQL generated")) },
               [CallEvent.reportCall st.question])

/-- `SupervisorAgent._generate_insight`. -/
def generateInsightNode (env : EnvOracles) (st : AgentState) :
    AgentState × List CallEvent :=
  match env.insightOracle st.question with
  | none => ({ st with error := some (chars "Insight generation failed") },
             [CallEvent.insightCall st.question])
  | some ins =>
      match ins.sql_queries with
      | q :: _ =>
          ({ st with sql_result := some { sql := q, explanation := ins.summary,
                                          confidence := 85 } },
           [CallEvent.insightCall st.question])
      | [] => ({ st with error := some (chars "No SQL generated from insight") },
               [CallEvent.insightCall st.question])

/-- Case-sensitive literal prefix test (Python `str.startswith`). -/
def listStartsWith : List Char → List Char → Bool
  | [], _ => true
  | _ :: _, [] => false
  | p :: ps, c :: cs => p = c && listStartsWith ps cs

/-- `SupervisorAgent._validate_sql`: missing or empty SQL and generator
error reports short-circuit; otherwise the validator runs and its errors
are joined into the state error. -/
def validateSqlNode (st : AgentState) : AgentState :=
  match st.sql_result with
  | none => { st with error := some (chars "No SQL generated") }
  | some sr =>
      if sr.sql.isEmpty then { st with error := some (chars "No SQL generated") }
      else if listStartsWith (chars "/*\nERROR") (stripWs sr.sql) then
        { st with error := some (chars "SQL Generation Failed (see details in SQL console)") }
      else
        let v := validate sr.sql
        if v.is_valid then { st with validation := some v }
        else { st with validation := some v,
                       error := some (joinWith (chars "; ") v.errors) }

/-- `SupervisorAgent._route_after_validation`. -/
def routeExecute (st : AgentState) : Bool :=
  match st.validation with
  | some v => v.is_valid
  | none => false

/-- `SupervisorAgent._execute_query`: dispatch the validated SQL to the
connector (demo data when no connector is configured).  The `execCall`
event marks the execution stage dispatching the validated query. -/
def executeQueryNode (env : EnvOracles) (st : AgentState) :
    AgentState × List CallEvent :=
  match st.validation with
  | none => ({ st with error := some (chars "No validated SQL") }, [])
  | some v =>
      match env.dbExec with
      | some ex =>
          (match ex v.sql with
           | some r => ({ st with query_result := some r }, [CallEvent.execCall v.sql])
           | none => ({ st with error := some (chars "Query execution failed") },
                      [CallEvent.execCall v.sql]))
      | none => ({ st with query_result := some demoResult }, [CallEvent.execCall v.sql])

/-- `SupervisorAgent._generate_visualization`. -/
def generateVisualizationNode (env : EnvOracles) (st : AgentState) : AgentState :=
  match st.query_result with
  | some r =>
      if st.error.isNone then
        { st with visualization := some (env.vizOracle r (st.question.take 50)) }
      else st
  | none => st

/-- Decimal rendering of a row count. -/
def natChars (n : Nat) : List Char := (Nat.repr n).data

/-- `SupervisorAgent._record_feedback`: always record the query for
feedback when SQL exists; on the no-error path, record the assistant turn
in memory and write the result cache. -/
def recordFeedbackNode (svc : Services) (now : Nat) (st : AgentState) :
    Services × List CallEvent :=
  let svc1 :=
    match st.sql_result with
    | some sr =>
        { svc with feedback := svc.feedback ++
            [({ question := st.question, original_sql := sr.sql, corrected_sql := none,
                rating := 0, was_executed := true,
                execution_success := st.error.isNone,
                user_id := st.user_id } : FeedbackRecord)] }
    | none => svc
  let svc2 :=
    match svc1.memory with
    | some mem =>
        if st.error.isNone then
          { svc1 with memory := some (addMessage mem st.user_id (chars "assistant")
              ((st.sql_result.map (fun sr : SQLResult => sr.explanation)).getD [])
              st.session_id
              ⟨some ((st.sql_result.map (fun sr : SQLResult => sr.sql)).getD []),
               some (natChars
                 ((st.query_result.map (fun r : ExecutionResult => r.row_count)).getD 0) ++
                 chars " rows")⟩) }
        else svc1
    | none => svc1
  match svc.cache with
  | some c =>
      if st.error.isNone then
        ({ svc2 with cache := some (c.set st.question
             ((st.validation.map (fun v : ValidationResult => v.sql)).getD [])
             st.query_result now) },
         [CallEvent.cacheWrite st.question
            ((st.validation.map (fun v : ValidationResult => v.sql)).getD [])])
      else (svc2, [])
  | none => (svc2, [])

/-- `SupervisorAgent._handle_error`. -/
def handleErrorNode (st : AgentState) : AgentState :=
  if st.error.isNone then { st with error := some (chars "Unknown error occurred") } else st

/-- The workflow from intent analysis onward (the part after a cache miss
and the memory load), following the conditional edges of `_build_graph`. -/
def runPipelineTail (env : EnvOracles) (svcM : Services) (now : Nat)
    (st2 : AgentState) : AgentState × Services × List CallEvent :=
  let r3 := analyzeIntentNode env st2
  if routeAfterIntent r3.1 = chars "error" then (handleErrorNode r3.1, svcM, r3.2)
  else
    let r4 :=
      if routeAfterIntent r3.1 = chars "report_generation" then generateReportNode env r3.1
      else if routeAfterIntent r3.1 = chars "insight_generation" then generateInsightNode env r3.1
      else generateSqlNode env r3.1
    let st5 := validateSqlNode r4.1
    if routeExecute st5 = false then (handleErrorNode st5, svcM, r3.2 ++ r4.2)
    else
      let r6 := executeQueryNode env st5
      let st7 := generateVisualizationNode env r6.1
      let r8 := recordFeedbackNode svcM now st7
      (st7, r8.1, r3.2 ++ r4.2 ++ r6.2 ++ r8.2)

/-- One run of the compiled LangGraph workflow, following the conditional
edges of `_build_graph`. -/
def runGraph (env : EnvOracles) (svc : Services) (now : Nat) (st0 : AgentState) :
    AgentState × Services × List CallEvent :=
  let r1 := checkCacheNode svc now st0
  if routeCacheHit r1.1 then (r1.1, r1.2, [])
  else
    let r2 := loadMemoryNode r1.2 r1.1
    runPipelineTail env r2.2 now r2.1

/-- `QueryResponse` (the supervisor's response dataclass). -/
structure QueryResponse where
  success : Bool
  question : List Char
  sql : List Char
  explanation : List Char
  data : Option ExecutionResult
  intent_type : List Char
  visualization : Option (List Char)
  error : Option (List Char)
  warnings : List (List Char)
  cached : Bool
deriving DecidableEq

def initialState (question uid sid : List Char) : AgentState :=
  { question := question, user_id := uid, session_id := sid, intent := none,
    sql_result := none, validation := none, query_result := none,
    visualization := none, error := none, messages := [question],
    conversation_context := none }

/-- `SupervisorAgent.process_query`: run the workflow and build the
response.  Note both branches set `cached := false`. -/
def processQuery (env : EnvOracles) (svc : Services) (now : Nat)
    (question uid sid : List Char) : QueryResponse × Services × List CallEvent :=
  let r := runGraph env svc now (initialState question uid sid)
  let fs := r.1
  if fs.error.isSome then
    ({ success := false, question := question,
       sql := (fs.sql_result.map (fun sr => sr.sql)).getD [],
       explanation := [], data := none, intent_type := chars "data_retrieval",
       visualization := none, error := fs.error, warnings := [], cached := false },
     r.2.1, r.2.2)
  else
    ({ success := true, question := question,
       sql := (fs.validation.map (fun v => v.sql)).getD [],
       explanation := (fs.sql_result.map (fun sr => sr.explanation)).getD [],
       data := fs.query_result,
       intent_type := (fs.intent.map (fun i => i.intent_type)).getD (chars "data_retrieval"),
       visualization := fs.visualization, error := none,
       warnings := (fs.validation.map (fun v => v.warnings)).getD [],
       cached := false },
     r.2.1, r.2.2)

/-- Number of execution-stage dispatches in an event log. -/
def countExec (ev : List CallEvent) : Nat :=
  ev.countP (fun e => match e with | CallEvent.execCall _ => true | _ => false)

/-- Number of SQL-generator dispatches in an event log. -/
def countGen (ev : List CallEvent) : Nat :=
  ev.countP (fun e => match e with | CallEvent.genCall _ => true | _ => false)

/-- A concrete collaborator environment: ad-hoc intent, a fixed generated
query, demo-mode execution (no connector), fixed chart config. -/
def demoEnv : EnvOracles :=
  { intentOracle := fun _ => some ⟨chars "data_retrieval"⟩,
    sqlGenOracle := fun _ =>
      some { sql := chars "SELECT name FROM customers",
             explanation := chars "lists customers", confidence := 100 },
    reportOracle := fun _ => none,
    insightOracle := fun _ => none,
    dbExec := none,
    vizOracle := fun _ _ => chars "bar" }

/-- Fresh default services: empty cache (size 500, TTL 1800 s), empty
memory (20 turns), no feedback records. -/
def freshServices : Services :=
  { cache := some { max_size := 500, ttl_seconds := 1800, store := [] },
    memory := some { max_turns := 20, max_tokens := 4000, sessions := [], contexts := [] },
    feedback := [] }

/-! ## Node-level lemmas for the workflow -/

theorem analyzeIntent_events (env : EnvOracles) (st : AgentState) :
    (analyzeIntentNode env st).2 = [CallEvent.intentCall st.question] := by
  cases h : env.intentOracle st.question <;> simp [analyzeIntentNode, h]

theorem cacheWrite_not_mem_generateSql (env : EnvOracles) (st : AgentState)
    (qq ss : List Char) : CallEvent.cacheWrite qq ss ∉ (generateSqlNode env st).2 := by
  simp only [generateSqlNode]
  split <;> simp

theorem cacheWrite_not_mem_generateReport (env : EnvOracles) (st : AgentState)
    (qq ss : List Char) : CallEvent.cacheWrite qq ss ∉ (generateReportNode env st).2 := by
  simp only [generateReportNode]
  split
  · simp
  · split <;> simp

theorem cacheWrite_not_mem_generateInsight (env : EnvOracles) (st : AgentState)
    (qq ss : List Char) : CallEvent.cacheWrite qq ss ∉ (generateInsightNode env st).2 := by
  simp only [generateInsightNode]
  split
  · simp
  · split <;> simp

theorem cacheWrite_not_mem_execute (env : EnvOracles) (st : AgentState)
    (qq ss : List Char) : CallEvent.cacheWrite qq ss ∉ (executeQueryNode env st).2 := by
  simp only [executeQueryNode]
  split
  · simp
  · split
    · split <;> simp
    · simp

theorem recordFeedback_events (svc : Services) (now : Nat) (st : AgentState) :
    (recordFeedbackNode svc now st).2 =
      (match svc.cache with
       | some _ =>
           if st.error.isNone then
             [CallEvent.cacheWrite st.question
                ((st.validation.map (fun v : ValidationResult => v.sql)).getD [])]
           else []
       | none => []) := by
  cases hc : svc.cache with
  | none => simp [recordFeedbackNode, hc]
  | some c =>
      simp only [recordFeedbackNode, hc]
      by_cases he : st.error.isNone = true <;> simp [he]

theorem cacheWrite_mem_recordFeedback (svc : Services) (now : Nat) (st : AgentState)
    (qq ss : List Char)
    (hw : CallEvent.cacheWrite qq ss ∈ (recordFeedbackNode svc now st).2) :
    st.error = none := by
  rw [recordFeedback_events] at hw
  cases hc : svc.cache with
  | none => rw [hc] at hw; simp at hw
  | some c =>
      rw [hc] at hw
      cases he : st.error with
      | none => rfl
      | some e => rw [he] at hw; simp at hw

theorem recordFeedback_cache (svc : Services) (now : Nat) (st : AgentState)
    (c : QueryCache) (hc : svc.cache = some c) (he : st.error = none) :
    (recordFeedbackNode svc now st).1.cache =
      some (c.set st.question
        ((st.validation.map (fun v : ValidationResult => v.sql)).getD [])
        st.query_result now) := by
  simp [recordFeedbackNode, hc, he]

theorem loadMemory_state (svc : Services) (st : AgentState) :
    (loadMemoryNode svc st).1 =
      { st with conversation_context := (loadMemoryNode svc st).1.conversation_context } := by
  cases h : svc.memory <;> simp [loadMemoryNode, h]

theorem loadMemory_svc_cache (svc : Services) (st : AgentState) :
    (loadMemoryNode svc st).2.cache = svc.cache := by
  cases h : svc.memory <;> simp [loadMemoryNode, h]

theorem checkCache_miss (svc : Services) (now : Nat) (st : AgentState) (c : QueryCache)
    (hc : svc.cache = some c) (hmiss : alookup (hashKey st.question) c.store = none) :
    checkCacheNode svc now st = (st, svc) := by
  obtain ⟨sc, sm, sf⟩ := svc
  have hc2 : sc = some c := hc
  subst hc2
  have hget : c.get st.question now = (none, c) := by
    simp [QueryCache.get, hmiss]
  simp [checkCacheNode, hget]

theorem handleError_isSome (st : AgentState) :
    (handleErrorNode st).error.isSome = true := by
  cases h : st.error <;> simp [handleErrorNode, h]

theorem routeExecute_true (st : AgentState) (h : routeExecute st = true) :
    ∃ v, st.validation = some v ∧ v.is_valid = true := by
  cases hv : st.validation with
  | none => simp only [routeExecute, hv] at h; exact absurd h (by simp)
  | some v => simp only [routeExecute, hv] at h; exact ⟨v, rfl, h⟩

theorem execute_spec (env : EnvOracles) (st : AgentState) (v : ValidationResult)
    (hv : st.validation = some v) :
    (executeQueryNode env st).1.validation = some v ∧
    (executeQueryNode env st).1.question = st.question ∧
    (executeQueryNode env st).2 = [CallEvent.execCall v.sql] ∧
    (((executeQueryNode env st).1.error = st.error ∧
      (executeQueryNode env st).1.query_result.isSome = true) ∨
     (∃ e, (executeQueryNode env st).1.error = some e ∧
        (executeQueryNode env st).1.query_result = st.query_result)) := by
  cases hdb : env.dbExec with
  | none => simp [executeQueryNode, hv, hdb]
  | some ex =>
      cases hex : ex v.sql with
      | some r => simp [executeQueryNode, hv, hdb, hex]
      | none => simp [executeQueryNode, hv, hdb, hex]

theorem viz_fields (env : EnvOracles) (st : AgentState) :
    (generateVisualizationNode env st).error = st.error ∧
    (generateVisualizationNode env st).validation = st.validation ∧
    (generateVisualizationNode env st).query_result = st.query_result ∧
    (generateVisualizationNode env st).question = st.question := by
  cases hq : st.query_result with
  | none => simp [generateVisualizationNode, hq]
  | some r =>
      by_cases he : st.error.isNone = true <;> simp [generateVisualizationNode, hq, he]

/-! ## The write-only-on-success lemma for the pipeline tail -/

theorem pipelineTail_write (env : EnvOracles) (svcM : Services) (now : Nat)
    (st2 : AgentState) (qq ss : List Char) (fs : AgentState) (svcOut : Services)
    (ev : List CallEvent)
    (h : runPipelineTail env svcM now st2 = (fs, svcOut, ev))
    (hw : CallEvent.cacheWrite qq ss ∈ ev) :
    fs.error = none ∧ ∃ v, fs.validation = some v ∧ v.is_valid = true ∧
      fs.query_result.isSome = true := by
  simp only [runPipelineTail] at h
  set R := analyzeIntentNode env st2 with hR
  set G := (if routeAfterIntent R.1 = chars "report_generation" then generateReportNode env R.1
            else if routeAfterIntent R.1 = chars "insight_generation" then generateInsightNode env R.1
            else generateSqlNode env R.1) with hG
  set ST5 := validateSqlNode G.1 with hST5
  set EX := executeQueryNode env ST5 with hEX
  set VZ := generateVisualizationNode env EX.1 with hVZ
  set FB := recordFeedbackNode svcM now VZ with hFB
  have hRev : R.2 = [CallEvent.intentCall st2.question] := by
    rw [hR]; exact analyzeIntent_events env st2
  have hgw : CallEvent.cacheWrite qq ss ∉ G.2 := by
    rw [hG]
    split
    · exact cacheWrite_not_mem_generateReport _ _ _ _
    · split
      · exact cacheWrite_not_mem_generateInsight _ _ _ _
      · exact cacheWrite_not_mem_generateSql _ _ _ _
  by_cases hre : routeAfterIntent R.1 = chars "error"
  · rw [if_pos hre] at h
    rw [Prod.mk.injEq, Prod.mk.injEq] at h
    obtain ⟨-, -, hev⟩ := h
    subst hev
    rw [hRev] at hw
    simp at hw
  · rw [if_neg hre] at h
    by_cases hxc : routeExecute ST5 = false
    · rw [if_pos hxc] at h
      rw [Prod.mk.injEq, Prod.mk.injEq] at h
      obtain ⟨-, -, hev⟩ := h
      subst hev
      rw [List.mem_append, hRev] at hw
      rcases hw with hw | hw
      · simp at hw
      · exact absurd hw hgw
    · rw [if_neg hxc] at h
      rw [Prod.mk.injEq, Prod.mk.injEq] at h
      obtain ⟨hfs, -, hev⟩ := h
      subst hev
      rw [List.mem_append, List.mem_append, List.mem_append, hRev] at hw
      have hwr : CallEvent.cacheWrite qq ss ∈ FB.2 := by
        rcases hw with ((hw | hw) | hw) | hw
        · simp at hw
        · exact absurd hw hgw
        · rw [hEX] at hw
          exact absurd hw (cacheWrite_not_mem_execute _ _ _ _)
        · exact hw
      have herr : VZ.error = none := by
        rw [hFB] at hwr
        exact cacheWrite_mem_recordFeedback _ _ _ _ _ hwr
      have hroute : routeExecute ST5 = true := by
        rcases Bool.eq_false_or_eq_true (routeExecute ST5) with ht | hf
        · exact ht
        · exact absurd hf hxc
      obtain ⟨v, hv, hvalid⟩ := routeExecute_true _ hroute
      obtain ⟨hexV, -, -, hed⟩ := execute_spec env ST5 v hv
      rw [← hEX] at hexV hed
      obtain ⟨hvzE, hvzV, hvzQ, -⟩ := viz_fields env EX.1
      rw [← hVZ] at hvzE hvzV hvzQ
      subst hfs
      refine ⟨herr, v, ?_, hvalid, ?_⟩
      · rw [hvzV, hexV]
      · rcases hed with ⟨-, hqs⟩ | ⟨e, heq, -⟩
        · rw [hvzQ]
          exact hqs
        · exfalso
          rw [hvzE, heq] at herr
          exact Option.noConfusion herr

/-! ## Claim C10: cache entries only on valid, successful runs -/

/-- C10: in every orchestrator run, a result-cache write happens only if
the run's final state carries a validation outcome with `is_valid = true`,
no recorded error, and a non-empty execution result; no error path writes
the cache. -/
theorem cache_write_only_on_valid_success (env : EnvOracles) (svc : Services)
    (now : Nat) (question uid sid qq ss : List Char) (fs : AgentState)
    (svcOut : Services) (ev : List CallEvent)
    (h : runGraph env svc now (initialState question uid sid) = (fs, svcOut, ev))
    (hw : CallEvent.cacheWrite qq ss ∈ ev) :
    fs.error = none ∧
    ∃ v, fs.validation = some v ∧ v.is_valid = true ∧
      fs.query_result.isSome = true := by
  simp only [runGraph] at h
  split at h
  · rw [Prod.mk.injEq, Prod.mk.injEq] at h
    obtain ⟨-, -, hev⟩ := h
    subst hev
    simp at hw
  · exact pipelineTail_write _ _ _ _ _ _ _ _ _ h hw

/-! ## Further node lemmas: question preservation and event counts -/

theorem analyzeIntent_question (env : EnvOracles) (st : AgentState) :
    (analyzeIntentNode env st).1.question = st.question := by
  cases h : env.intentOracle st.question <;> simp [analyzeIntentNode, h]

theorem generateSql_question (env : EnvOracles) (st : AgentState) :
    (generateSqlNode env st).1.question = st.question := by
  simp only [generateSqlNode]
  split <;> rfl

theorem generateReport_question (env : EnvOracles) (st : AgentState) :
    (generateReportNode env st).1.question = st.question := by
  simp only [generateReportNode]
  split
  · rfl
  · split <;> rfl

theorem generateInsight_question (env : EnvOracles) (st : AgentState) :
    (generateInsightNode env st).1.question = st.question := by
  simp only [generateInsightNode]
  split
  · rfl
  · split <;> rfl

theorem validate_node_question (st : AgentState) :
    (validateSqlNode st).question = st.question := by
  simp only [validateSqlNode]
  split
  · rfl
  · split
    · rfl
    · split
      · rfl
      · split <;> rfl

theorem countExec_generateSql (env : EnvOracles) (st : AgentState) :
    countExec (generateSqlNode env st).2 = 0 := by
  simp only [generateSqlNode]
  split <;> simp [countExec]

theorem countExec_generateReport (env : EnvOracles) (st : AgentState) :
    countExec (generateReportNode env st).2 = 0 := by
  simp only [generateReportNode]
  split
  · simp [countExec]
  · split <;> simp [countExec]

theorem countExec_generateInsight (env : EnvOracles) (st : AgentState) :
    countExec (generateInsightNode env st).2 = 0 := by
  simp only [generateInsightNode]
  split
  · simp [countExec]
  · split <;> simp [countExec]

theorem countExec_recordFeedback (svc : Services) (now : Nat) (st : AgentState) :
    countExec (recordFeedbackNode svc now st).2 = 0 := by
  rw [recordFeedback_events]
  cases hc : svc.cache with
  | none => simp [countExec]
  | some c =>
      by_cases he : st.error.isNone = true <;> simp [he, countExec]

theorem countExec_append (a b : List CallEvent) :
    countExec (a ++ b) = countExec a + countExec b := by
  simp [countExec, List.countP_append]

/-! ## The success-trace lemma for the pipeline tail -/

theorem pipelineTail_success (env : EnvOracles) (svcM : Services) (now : Nat)
    (st2 : AgentState) (c : QueryCache) (fs : AgentState) (svcOut : Services)
    (ev : List CallEvent)
    (h : runPipelineTail env svcM now st2 = (fs, svcOut, ev))
    (herr : fs.error = none)
    (hc : svcM.cache = some c) :
    fs.question = st2.question ∧
    countExec ev = 1 ∧
    (∃ v r, fs.validation = some v ∧ v.is_valid = true ∧ fs.query_result = some r ∧
      svcOut.cache = some (c.set st2.question v.sql (some r) now)) := by
  simp only [runPipelineTail] at h
  set R := analyzeIntentNode env st2 with hR
  set G := (if routeAfterIntent R.1 = chars "report_generation" then generateReportNode env R.1
            else if routeAfterIntent R.1 = chars "insight_generation" then generateInsightNode env R.1
            else generateSqlNode env R.1) with hG
  set ST5 := validateSqlNode G.1 with hST5
  set EX := executeQueryNode env ST5 with hEX
  set VZ := generateVisualizationNode env EX.1 with hVZ
  set FB := recordFeedbackNode svcM now VZ with hFB
  have hRev : R.2 = [CallEvent.intentCall st2.question] := by
    rw [hR]; exact analyzeIntent_events env st2
  have hGcount : countExec G.2 = 0 := by
    rw [hG]
    split
    · exact countExec_generateReport _ _
    · split
      · exact countExec_generateInsight _ _
      · exact countExec_generateSql _ _
  have hGq : G.1.question = R.1.question := by
    rw [hG]
    split
    · exact generateReport_question _ _
    · split
      · exact generateInsight_question _ _
      · exact generateSql_question _ _
  by_cases hre : routeAfterIntent R.1 = chars "error"
  · rw [if_pos hre] at h
    rw [Prod.mk.injEq, Prod.mk.injEq] at h
    obtain ⟨hfs, -, -⟩ := h
    rw [← hfs] at herr
    have := handleError_isSome R.1
    rw [herr] at this
    exact absurd this (by simp)
  · rw [if_neg hre] at h
    by_cases hxc : routeExecute ST5 = false
    · rw [if_pos hxc] at h
      rw [Prod.mk.injEq, Prod.mk.injEq] at h
      obtain ⟨hfs, -, -⟩ := h
      rw [← hfs] at herr
      have := handleError_isSome ST5
      rw [herr] at this
      exact absurd this (by simp)
    · rw [if_neg hxc] at h
      rw [Prod.mk.injEq, Prod.mk.injEq] at h
      obtain ⟨hfs, hsvc, hev⟩ := h
      subst hev
      have hroute : routeExecute ST5 = true := by
        rcases Bool.eq_false_or_eq_true (routeExecute ST5) with ht | hf
        · exact ht
        · exact absurd hf hxc
      obtain ⟨v, hv, hvalid⟩ := routeExecute_true _ hroute
      obtain ⟨hexV, hexQu, hexEv, hed⟩ := execute_spec env ST5 v hv
      rw [← hEX] at hexV hexQu hexEv hed
      obtain ⟨hvzE, hvzV, hvzQ, hvzQu⟩ := viz_fields env EX.1
      rw [← hVZ] at hvzE hvzV hvzQ hvzQu
      have hQchain : VZ.question = st2.question := by
        rw [hvzQu, hexQu, hST5, validate_node_question, hGq, hR, analyzeIntent_question]
      have hVZerr : VZ.error = none := by rw [hfs]; exact herr
      have hqr : ∃ r, VZ.query_result = some r := by
        rcases hed with ⟨-, hqs⟩ | ⟨e, heq, -⟩
        · rw [hvzQ]
          exact Option.isSome_iff_exists.mp hqs
        · exfalso
          rw [hvzE, heq] at hVZerr
          exact Option.noConfusion hVZerr
      obtain ⟨r, hr⟩ := hqr
      have hVZval : VZ.validation = some v := by rw [hvzV, hexV]
      refine ⟨by rw [← hfs]; exact hQchain, ?_, v, r, ?_, hvalid, ?_, ?_⟩
      · rw [countExec_append, countExec_append, countExec_append, hRev, hexEv]
        rw [hG]
        have h0 : countExec [CallEvent.intentCall st2.question] = 0 := by simp [countExec]
        have h1 : countExec [CallEvent.execCall v.sql] = 1 := by simp [countExec]
        rw [h0, h1, ← hG, hGcount, hFB, countExec_recordFeedback]
      · rw [← hfs]; exact hVZval
      · rw [← hfs]; exact hr
      · rw [← hsvc, hFB]
        have := recordFeedback_cache svcM now VZ c hc hVZerr
        rw [this, hVZval, hQchain, hr]
        rfl

/-! ## processQuery bridge lemmas -/

theorem processQuery_components (env : EnvOracles) (svc : Services) (now : Nat)
    (q uid sid : List Char) :
    (processQuery env svc now q uid sid).2.1 =
      (runGraph env svc now (initialState q uid sid)).2.1 ∧
    (processQuery env svc now q uid sid).2.2 =
      (runGraph env svc now (initialState q uid sid)).2.2 ∧
    ((processQuery env svc now q uid sid).1.success = true ↔
      (runGraph env svc now (initialState q uid sid)).1.error = none) ∧
    ((runGraph env svc now (initialState q uid sid)).1.error = none →
      (processQuery env svc now q uid sid).1.data =
        (runGraph env svc now (initialState q uid sid)).1.query_result ∧
      (processQuery env svc now q uid sid).1.cached = false) := by
  by_cases he : (runGraph env svc now (initialState q uid sid)).1.error.isSome = true
  · obtain ⟨e0, he0⟩ := Option.isSome_iff_exists.mp he
    simp [processQuery, he, he0]
  · have hn : (runGraph env svc now (initialState q uid sid)).1.error = none :=
      Option.not_isSome_iff_eq_none.mp he
    simp [processQuery, he, hn]

theorem runGraph_miss (env : EnvOracles) (svc : Services) (now : Nat)
    (q uid sid : List Char) (c : QueryCache)
    (hc : svc.cache = some c)
    (hmiss : alookup (hashKey q) c.store = none) :
    runGraph env svc now (initialState q uid sid) =
      runPipelineTail env (loadMemoryNode svc (initialState q uid sid)).2 now
        (loadMemoryNode svc (initialState q uid sid)).1 := by
  have hcc : checkCacheNode svc now (initialState q uid sid) =
      (initialState q uid sid, svc) :=
    checkCache_miss svc now (initialState q uid sid) c hc hmiss
  simp only [runGraph, hcc]
  simp [routeCacheHit, initialState]

theorem loadMemory_question (svc : Services) (st : AgentState) :
    (loadMemoryNode svc st).1.question = st.question := by
  cases h : svc.memory <;> simp [loadMemoryNode, h]

/-- The cache state after a hit bumped the entry's hit counter. -/
def bumpHit (c : QueryCache) (q : List Char) (e : CacheEntry) : QueryCache :=
  { c with store := aset (hashKey q) ({ e with hit_count := e.hit_count + 1 }) c.store }

/-- The workflow state right after `_check_cache` found a usable entry. -/
def cachedState (q uid sid : List Char) (e : CacheEntry) : AgentState :=
  { initialState q uid sid with
      query_result := e.result,
      sql_result := some { sql := e.sql, explanation := chars "(cached result)",
                           confidence := 100 } }

theorem processQuery_hit (env : EnvOracles) (svc : Services) (now : Nat)
    (q uid sid : List Char) (c : QueryCache) (e : CacheEntry)
    (hc : svc.cache = some c)
    (hl : alookup (hashKey q) c.store = some e)
    (httl : ¬(c.ttl_seconds < now - e.created_at))
    (hres : e.result.isSome = true) :
    (processQuery env svc now q uid sid).1.cached = false ∧
    (processQuery env svc now q uid sid).1.success = true ∧
    (processQuery env svc now q uid sid).1.data = e.result ∧
    (processQuery env svc now q uid sid).2.2 = [] := by
  have hcc : checkCacheNode svc now (initialState q uid sid) =
      (cachedState q uid sid e, { svc with cache := some (bumpHit c q e) }) := by
    simp [checkCacheNode, hc, QueryCache.get, hl, httl, bumpHit, cachedState, initialState]
  have hrg : runGraph env svc now (initialState q uid sid) =
      (cachedState q uid sid e, { svc with cache := some (bumpHit c q e) }, []) := by
    simp only [runGraph, hcc]
    simp [routeCacheHit, cachedState, hres]
  simp only [processQuery, hrg]
  simp [cachedState, initialState]

/-! ## Claim C2: repeated question within the TTL -/

/-- C2 counterexample: the same question submitted twice against fresh
services; the first run succeeds and caches, the second run answers from
the cache (no events at all), yet its response carries `cached = false`:
`process_query` hard-codes `cached := false` and discards the cache
payload's `cached = true` flag.  This refutes the claim that the second
response has `cached = true`. -/
theorem second_run_cached_false :
    (processQuery demoEnv freshServices 0
      (chars "Show all customers") (chars "alice") []).1.success = true ∧
    (processQuery demoEnv
      (processQuery demoEnv freshServices 0
        (chars "Show all customers") (chars "alice") []).2.1
      5 (chars "Show all customers") (chars "alice") []).2.2 = [] ∧
    (processQuery demoEnv
      (processQuery demoEnv freshServices 0
        (chars "Show all customers") (chars "alice") []).2.1
      5 (chars "Show all customers") (chars "alice") []).1.cached = false := by
  refine ⟨by decide, by decide, by decide⟩

/-- C2 (amended): for every question whose normalized text is not yet
cached, if the first orchestrator run succeeds, then a second run of the
same question within the TTL performs no collaborator work at all (the
execution contract is dispatched exactly once across the two runs),
succeeds, and returns the first run's data — but its response has
`cached = false`, not `cached = true`, because `process_query` never
propagates the cache hit flag. -/
theorem cache_second_run (env : EnvOracles) (svc : Services) (now1 now2 : Nat)
    (q uid sid : List Char) (c : QueryCache)
    (hc : svc.cache = some c)
    (hmiss : alookup (hashKey q) c.store = none)
    (httl : now2 - now1 ≤ c.ttl_seconds)
    (hs : (processQuery env svc now1 q uid sid).1.success = true) :
    countExec ((processQuery env svc now1 q uid sid).2.2 ++
        (processQuery env (processQuery env svc now1 q uid sid).2.1 now2 q uid sid).2.2) = 1 ∧
    (processQuery env (processQuery env svc now1 q uid sid).2.1 now2 q uid sid).1.cached = false ∧
    (processQuery env (processQuery env svc now1 q uid sid).2.1 now2 q uid sid).1.success = true ∧
    (processQuery env (processQuery env svc now1 q uid sid).2.1 now2 q uid sid).1.data =
      (processQuery env svc now1 q uid sid).1.data := by
  obtain ⟨hpc1, hpc2, hpc3, hpc4⟩ := processQuery_components env svc now1 q uid sid
  have herr1 : (runGraph env svc now1 (initialState q uid sid)).1.error = none := hpc3.mp hs
  have hrg1 := runGraph_miss env svc now1 q uid sid c hc hmiss
  have hcM : (loadMemoryNode svc (initialState q uid sid)).2.cache = some c := by
    rw [loadMemory_svc_cache]; exact hc
  have heq : runPipelineTail env (loadMemoryNode svc (initialState q uid sid)).2 now1
      (loadMemoryNode svc (initialState q uid sid)).1 =
      ((runGraph env svc now1 (initialState q uid sid)).1,
       (runGraph env svc now1 (initialState q uid sid)).2.1,
       (runGraph env svc now1 (initialState q uid sid)).2.2) := by
    rw [← hrg1]
  obtain ⟨-, hcount1, v, r, -, -, hqr, hcache⟩ :=
    pipelineTail_success env (loadMemoryNode svc (initialState q uid sid)).2 now1
      (loadMemoryNode svc (initialState q uid sid)).1 c
      (runGraph env svc now1 (initialState q uid sid)).1
      (runGraph env svc now1 (initialState q uid sid)).2.1
      (runGraph env svc now1 (initialState q uid sid)).2.2
      heq herr1 hcM
  have hq2 : (loadMemoryNode svc (initialState q uid sid)).1.question = q := by
    rw [loadMemory_question]
    rfl
  rw [hq2] at hcache
  have hl2 : alookup (hashKey q) (QueryCache.set c q v.sql (some r) now1).store =
      some { question := q, sql := v.sql, result := some r,
             created_at := now1, hit_count := 0 } := by
    rw [QueryCache_set_store]
    exact alookup_aset_self _ _ _
  have httl2 : ¬((QueryCache.set c q v.sql (some r) now1).ttl_seconds <
      now2 - ({ question := q, sql := v.sql, result := some r,
                created_at := now1, hit_count := 0 } : CacheEntry).created_at) := by
    rw [QueryCache_set_ttl]
    exact Nat.not_lt.mpr httl
  obtain ⟨hit1, hit2, hit3, hit4⟩ :=
    processQuery_hit env (runGraph env svc now1 (initialState q uid sid)).2.1 now2 q uid sid
      (QueryCache.set c q v.sql (some r) now1)
      ({ question := q, sql := v.sql, result := some r,
         created_at := now1, hit_count := 0 })
      hcache hl2 httl2 rfl
  rw [hpc1, hpc2]
  refine ⟨?_, hit1, hit2, ?_⟩
  · rw [hit4, countExec_append, hcount1]
    rfl
  · rw [hit3]
    rcases hpc4 herr1 with ⟨hdata, -⟩
    rw [hdata, hqr]

/-- C2 witness: the amended two-run behaviour evaluated on fresh services
and the demo environment. -/
theorem cache_second_run_witness :
    countExec ((processQuery demoEnv freshServices 0
        (chars "Show all customers") (chars "alice") []).2.2 ++
      (processQuery demoEnv (processQuery demoEnv freshServices 0
          (chars "Show all customers") (chars "alice") []).2.1 5
        (chars "Show all customers") (chars "alice") []).2.2) = 1 ∧
    (processQuery demoEnv (processQuery demoEnv freshServices 0
        (chars "Show all customers") (chars "alice") []).2.1 5
      (chars "Show all customers") (chars "alice") []).1.cached = false ∧
    (processQuery demoEnv (processQuery demoEnv freshServices 0
        (chars "Show all customers") (chars "alice") []).2.1 5
      (chars "Show all customers") (chars "alice") []).1.success = true ∧
    (processQuery demoEnv (processQuery demoEnv freshServices 0
        (chars "Show all customers") (chars "alice") []).2.1 5
      (chars "Show all customers") (chars "alice") []).1.data =
      (processQuery demoEnv freshServices 0
        (chars "Show all customers") (chars "alice") []).1.data :=
  cache_second_run demoEnv freshServices 0 5 (chars "Show all customers")
    (chars "alice") [] { max_size := 500, ttl_seconds := 1800, store := [] }
    rfl (by decide) (by decide) (by decide)

/-! ## Claim C3: rate limiting and the orchestrator -/

/-- C3 counterexample: the orchestrator never consults the rate limiter.
With the per-minute budget for user `alice` exhausted (minute limit 3,
three timestamps within the window, so `check` denies), the next request
still runs the full pipeline: it succeeds with no error and dispatches the
SQL generation contract — contradicting the claim that such a request is
rejected with `success = false` before any pipeline work. -/
theorem orchestrator_ignores_rate_limiter :
    (rlExhausted.check (chars "alice") 30).1 = false ∧
    (processQuery demoEnv freshServices 30
      (chars "Show all customers") (chars "alice") []).1.success = true ∧
    (processQuery demoEnv freshServices 30
      (chars "Show all customers") (chars "alice") []).1.error = none ∧
    countGen (processQuery demoEnv freshServices 30
      (chars "Show all customers") (chars "alice") []).2.2 = 1 := by
  refine ⟨by decide, by decide, by decide, by decide⟩

/-! ## Claim C6: conversation memory carry-over -/

/-- C6 counterexample: after turn 1 (`Show revenue by month`) the session
context does record the topic `revenue`, but on turn 2 the intent
classifier receives exactly the raw turn-2 text, which does not contain
the topic: `_analyze_intent` passes `state["question"]` alone, not the
rendered context. -/
theorem classifier_input_lacks_topic :
    (chars "revenue") ∈ (getContext ((processQuery demoEnv freshServices 0
        (chars "Show revenue by month") (chars "u") []).2.1.memory.getD
        ⟨20, 4000, [], []⟩) (chars "u") []).entities ∧
    ((processQuery demoEnv (processQuery demoEnv freshServices 0
        (chars "Show revenue by month") (chars "u") []).2.1 1
      (chars "now break it down by city") (chars "u") []).2.2.filterMap
        (fun e => match e with
          | CallEvent.intentCall i => some i
          | _ => none)) = [chars "now break it down by city"] ∧
    infixCI (chars "revenue") (chars "now break it down by city") = false := by
  refine ⟨by decide, by decide, by decide⟩

/-- C6 (amended): after turn 1 (`Show revenue by month`), `getContext` for
the session includes the topic `revenue`, and the rendered context string
is prefixed to the question handed to the SQL GENERATOR on turn 2, so the
generator's input for turn 2 contains the topic even though the turn-2
text does not mention it; the intent classifier, by contrast, receives
only the raw question. -/
theorem memory_topic_reaches_generator :
    (chars "revenue") ∈ (getContext ((processQuery demoEnv freshServices 0
        (chars "Show revenue by month") (chars "u") []).2.1.memory.getD
        ⟨20, 4000, [], []⟩) (chars "u") []).entities ∧
    ((processQuery demoEnv (processQuery demoEnv freshServices 0
        (chars "Show revenue by month") (chars "u") []).2.1 1
      (chars "now break it down by city") (chars "u") []).2.2.any
        (fun e => match e with
          | CallEvent.genCall i => infixCI (chars "revenue") i
          | _ => false)) = true := by
  refine ⟨by decide, by decide⟩

/-- C10 witness: a concrete successful run (which does write the cache)
satisfies the conclusion. -/
theorem cache_write_only_on_valid_success_witness :
    (runGraph demoEnv freshServices 0
      (initialState (chars "Show all customers") (chars "alice") [])).1.error = none ∧
    ∃ v, (runGraph demoEnv freshServices 0
        (initialState (chars "Show all customers") (chars "alice") [])).1.validation =
          some v ∧
      v.is_valid = true ∧
      (runGraph demoEnv freshServices 0
        (initialState (chars "Show all customers") (chars "alice") [])).1.query_result.isSome =
        true :=
  cache_write_only_on_valid_success demoEnv freshServices 0 (chars "Show all customers")
    (chars "alice") [] (chars "Show all customers")
    (chars "SELECT name FROM customers LIMIT 1000") _ _ _ rfl (by decide)


end AIQuery
